import Mathlib

/-!
Verification of the review-orchestration pipeline of the `procrasturbate`
repository (a webhook-driven AI code-review service).

The Lean definitions below are a shallow embedding of the Python source:

* `src/procrasturbate/services/diff_parser.py` — line-position index over
  parsed unified diffs (`get_line_positions`, `build_position_index`) and the
  glob path filter (`filter_files_by_patterns`, built on `PurePath.match`).
* `src/procrasturbate/services/cost_tracker.py` — `check_budget`,
  `calculate_cost_cents`.
* `src/procrasturbate/services/review_engine.py` — `review_pull_request`,
  embedded as a pure function from an environment (the responses of the
  external GitHub / Claude / database calls) to the observable outcome
  (the persisted Review row, the PR comments posted, the check-run updates,
  whether the AI was invoked, the usage recorded).
* `src/procrasturbate/services/claude_client.py` — the response-parsing tail
  of `ClaudeClient.review_diff`, together with an executable model of
  Python's `json.loads`.
* `src/procrasturbate/services/github_client.py` and
  `src/procrasturbate/utils/github_auth.py` — the request/response behaviour
  of `GitHubClient.get_pull_request` and the installation-token cache.
* `src/procrasturbate/api/webhooks.py` and
  `src/procrasturbate/tasks/review_tasks.py` — the webhook dispatch of
  `pull_request` events and the `process_pull_request` task body.

Python dicts are modelled as association lists with in-place replacement
(`dictInsert`), preserving Python's insertion-order and overwrite semantics.
Machine integers are `Nat`/`Int` (Python ints are unbounded).
-/

/-! ## Data model enums (src/procrasturbate/models) -/

/-- The `ReviewStatus` from `models/review.py`. -/
inductive ReviewStatus where
  | pending
  | in_progress
  | completed
  | failed
  | skipped
  | superseded
deriving DecidableEq, Repr

/-- The `ReviewTrigger` from `models/review.py`. -/
inductive ReviewTrigger where
  | pr_opened
  | pr_synchronize
  | pr_reopened
  | command
deriving DecidableEq, Repr

/-- The `.value` string of each `ReviewTrigger` member. -/
def ReviewTrigger.value : ReviewTrigger → String
  | .pr_opened => "pr_opened"
  | .pr_synchronize => "pr_synchronize"
  | .pr_reopened => "pr_reopened"
  | .command => "command"

/-- The `CommentSeverity` from `models/review_comment.py`. -/
inductive CommentSeverity where
  | critical
  | warning
  | suggestion
  | nitpick
  | praise
deriving DecidableEq, Repr

/-! ## Python dict model

Association lists with Python-dict semantics: assigning to an existing key
replaces its value in place, a fresh key is appended at the end. -/

/-- Model of `d[k] = v` on a Python dict. -/
def dictInsert {α β : Type} [DecidableEq α] (k : α) (v : β) :
    List (α × β) → List (α × β)
  | [] => [(k, v)]
  | (k1, v1) :: rest =>
      if k1 = k then (k, v) :: rest else (k1, v1) :: dictInsert k v rest

/-- Model of `d.get(k)` / `k in d` on a Python dict. -/
def dictLookup {α β : Type} [DecidableEq α] (k : α) :
    List (α × β) → Option β
  | [] => none
  | (k1, v1) :: rest => if k1 = k then some v1 else dictLookup k rest

/-- Model of `line.startswith(c)` for a one-character pattern: the first character of
the line is `c`. -/
def startsWithChar (c : Char) (l : String) : Bool :=
  l.data.head? == some c

/-! ## Diff parser data model (services/diff_parser.py) -/

/-- The `DiffHunk` from `services/diff_parser.py`. -/
structure DiffHunk where
  old_start : Nat
  old_count : Nat
  new_start : Nat
  new_count : Nat
  lines : List String
  header : String
deriving DecidableEq, Repr

/-- The `FileDiff` from `services/diff_parser.py`. -/
structure FileDiff where
  old_path : String
  new_path : String
  hunks : List DiffHunk
  is_new : Bool := false
  is_deleted : Bool := false
  is_renamed : Bool := false
  is_binary : Bool := false
deriving DecidableEq, Repr

/-- The `LinePosition` from `services/diff_parser.py`. -/
structure LinePosition where
  file_path : String
  line_number : Nat
  diff_position : Nat
  content : String
  is_addition : Bool
deriving DecidableEq, Repr

/-- The inner loop of `get_line_positions`: walks one hunk's body lines,
incrementing `diff_position` for every line; additions and context lines
insert an entry keyed by the running new-file line number, deletions only
advance the position.  Mirrors `diff_parser.py` lines 135-160. -/
def processHunkLines (path : String) :
    Nat → Nat → List String → List (Nat × LinePosition) →
    Nat × List (Nat × LinePosition)
  | dp, _nl, [], acc => (dp, acc)
  | dp, nl, l :: rest, acc =>
      if startsWithChar '+' l then
        processHunkLines path (dp + 1) (nl + 1) rest
          (dictInsert nl ⟨path, nl, dp + 1, l.drop 1, true⟩ acc)
      else if startsWithChar '-' l then
        processHunkLines path (dp + 1) nl rest acc
      else
        processHunkLines path (dp + 1) (nl + 1) rest
          (dictInsert nl
            ⟨path, nl, dp + 1,
              if startsWithChar ' ' l then l.drop 1 else l, false⟩
            acc)

/-- The outer loop of `get_line_positions`: one extra `diff_position` tick for
each `@@` hunk header, `new_line` reset to the hunk's `new_start`. -/
def processHunks (path : String) :
    Nat → List (Nat × LinePosition) → List DiffHunk →
    List (Nat × LinePosition)
  | _dp, acc, [] => acc
  | dp, acc, h :: hs =>
      let r := processHunkLines path (dp + 1) h.new_start h.lines acc
      processHunks path r.1 r.2 hs

/-- The `get_line_positions` from `services/diff_parser.py`: the mapping from
new-file line numbers to diff positions, empty for deleted or binary files. -/
def get_line_positions (fd : FileDiff) : List (Nat × LinePosition) :=
  if fd.is_deleted || fd.is_binary then []
  else processHunks fd.new_path 0 [] fd.hunks

/-- The `build_position_index` from `services/diff_parser.py`:
`{file_path: {line_number: LinePosition}}` over non-binary, non-deleted
files. -/
def build_position_index (files : List FileDiff) :
    List (String × List (Nat × LinePosition)) :=
  files.foldl
    (fun idx fd =>
      if !fd.is_binary && !fd.is_deleted then
        dictInsert fd.new_path (get_line_positions fd) idx
      else idx)
    []

/-! ## Specification side of the diff-position index (claim C5)

The spec describes the index as: walk the per-file diff body — every `@@`
header, context, addition and deletion line counts one `diff_position` —
while context and addition lines advance `new_line` and produce an entry,
and deletion lines advance only `diff_position`.  `hunkEntries`/`fileEntries`
enumerate exactly those entries as a list, in body order, with
`diff_position` equal to the running 1-based count of body lines. -/

/-- A deletion line of a hunk body begins with `-`. -/
def isDeletionLine (l : String) : Bool := startsWithChar '-' l

/-- The content stored for a context or addition line: the line with its
one-character prefix stripped (context lines with no leading space are kept
verbatim). -/
def lineContent (l : String) : String :=
  if startsWithChar '+' l then l.drop 1
  else if startsWithChar ' ' l then l.drop 1
  else l

/-- Spec-side enumeration of the entries contributed by one hunk body, one
per context or addition line, each with `diff_position` equal to the running
1-based count of body lines (`dp` body lines precede this hunk body; `nl` is
the next new-file line number). -/
def hunkEntries (path : String) (dp nl : Nat) :
    List String → List (Nat × LinePosition)
  | [] => []
  | l :: rest =>
      if startsWithChar '+' l then
        (nl, ⟨path, nl, dp + 1, l.drop 1, true⟩) ::
          hunkEntries path (dp + 1) (nl + 1) rest
      else if startsWithChar '-' l then hunkEntries path (dp + 1) nl rest
      else
        (nl, ⟨path, nl, dp + 1,
            if startsWithChar ' ' l then l.drop 1 else l, false⟩) ::
          hunkEntries path (dp + 1) (nl + 1) rest

/-- Spec-side enumeration of the entries of a whole file: each hunk
contributes its `@@` header line to the count, then its body lines. -/
def fileEntries (path : String) (dp : Nat) :
    List DiffHunk → List (Nat × LinePosition)
  | [] => []
  | h :: hs =>
      hunkEntries path (dp + 1) h.new_start h.lines ++
        fileEntries path (dp + 1 + h.lines.length) hs

/-- One line of a per-file diff body: the `@@` header or a hunk body line. -/
inductive BodyLine where
  | header
  | content (l : String)
deriving DecidableEq, Repr

/-- The per-file diff body of a list of hunks, in order. -/
def bodyOf (hs : List DiffHunk) : List BodyLine :=
  hs.flatMap (fun h => BodyLine.header :: h.lines.map BodyLine.content)

/-- The per-file diff body of a `FileDiff`. -/
def bodyLines (fd : FileDiff) : List BodyLine := bodyOf fd.hunks

/-! ## Executable Python string primitives

Character-list implementations of the Python string operations the source
uses (`str.split`, `str.strip`, `str.upper`), written so that a concrete
input evaluates by kernel reduction. -/

/-- Is `p` a prefix of `cs`? -/
def listStartsWith : List Char → List Char → Bool
  | [], _ => true
  | _ :: _, [] => false
  | p :: ps, c :: cs => p == c && listStartsWith ps cs

/-- Leftmost non-overlapping split on a nonempty separator, on char lists.
`cur` is the current chunk, reversed. -/
def pySplitAux (fuel : Nat) (sep : List Char) (cur : List Char)
    (cs : List Char) : List (List Char) :=
  match fuel with
  | 0 => [cur.reverse]
  | fuel + 1 =>
    match cs with
    | [] => [cur.reverse]
    | c :: rest =>
        if listStartsWith sep cs then
          cur.reverse :: pySplitAux fuel sep [] (cs.drop sep.length)
        else pySplitAux fuel sep (c :: cur) rest

/-- Python `s.split(sep)` for a nonempty separator (also the behaviour of
`String.splitOn` there). -/
def pySplit (s sep : String) : List String :=
  if sep.data.isEmpty then [s]
  else (pySplitAux (s.data.length + 1) sep.data [] s.data).map
    (fun l => String.mk l)

/-- Python whitespace (the ASCII part), as stripped by `str.strip()`. -/
def isPyWs (c : Char) : Bool :=
  c == ' ' || c == '\t' || c == '\n' || c == '\r' || c == '\x0b' ||
    c == '\x0c'

/-- Drop leading Python whitespace. -/
def dropWs : List Char → List Char
  | [] => []
  | c :: rest => if isPyWs c then dropWs rest else c :: rest

/-- Python `s.strip()`. -/
def pyStrip (s : String) : String :=
  String.mk (((dropWs s.data).reverse |> dropWs).reverse)

/-- Python `s.upper()` (ASCII). -/
def asciiUpper (s : String) : String :=
  String.mk (s.data.map Char.toUpper)

/-- Python `s[:n]`. -/
def pyTake (s : String) (n : Nat) : String :=
  String.mk (s.data.take n)

/-! ## Glob path filtering (services/diff_parser.py, filter_files_by_patterns)

`filter_files_by_patterns` delegates matching to Python's
`pathlib.PurePath.match`.  Its documented semantics (all CPython versions):
the pattern is split into components; a relative pattern matches from the
right (the path's trailing components must match the pattern's components
one-for-one, so the path needs at least as many components); each component
is matched with `fnmatch` rules (`*` any run of characters within the
component, `?` one character, `[...]` a character class) — and the recursive
wildcard `**` is NOT supported: it acts like the non-recursive `*`, matching
exactly one component. -/

/-- One token of an `fnmatch` pattern component. -/
inductive GlobTok where
  | lit (c : Char)
  | star
  | anyChar
  | cls (neg : Bool) (ranges : List (Char × Char))
deriving DecidableEq, Repr

/-- Parse a character class after `[`.  Follows `fnmatch.translate`: an
optional leading `!` negates, a `]` directly after the (optional) `!` is a
literal member, `a-b` is a range, and an unclosed `[` is a literal. -/
def parseClassBody (fuel : Nat) (neg : Bool) (firstSlot : Bool)
    (acc : List (Char × Char)) (cs : List Char) :
    Option (Bool × List (Char × Char) × List Char) :=
  match fuel with
  | 0 => none
  | fuel + 1 =>
    match cs with
    | [] => none
    | ']' :: rest =>
        if firstSlot then
          parseClassBody fuel neg false ((']', ']') :: acc) rest
        else some (neg, acc.reverse, rest)
    | a :: '-' :: b :: rest =>
        if b = ']' then
          -- a trailing `-` is literal: `a` and `-` are members
          parseClassBody fuel neg false (('-', '-') :: (a, a) :: acc)
            (']' :: rest)
        else parseClassBody fuel neg false ((a, b) :: acc) rest
    | a :: rest => parseClassBody fuel neg false ((a, a) :: acc) rest

/-- Tokenize one `fnmatch` pattern component. -/
def globTokenize (fuel : Nat) (cs : List Char) : List GlobTok :=
  match fuel with
  | 0 => []
  | fuel + 1 =>
    match cs with
    | [] => []
    | '*' :: rest => GlobTok.star :: globTokenize fuel rest
    | '?' :: rest => GlobTok.anyChar :: globTokenize fuel rest
    | '[' :: rest =>
        let body :=
          match rest with
          | '!' :: rest1 => parseClassBody (rest1.length + 1) true true [] rest1
          | _ => parseClassBody (rest.length + 1) false true [] rest
        match body with
        | some (neg, ranges, after) =>
            GlobTok.cls neg ranges :: globTokenize fuel after
        | none => GlobTok.lit '[' :: globTokenize fuel rest
    | c :: rest => GlobTok.lit c :: globTokenize fuel rest

/-- Does character `c` belong to the class described by `ranges`? -/
def inRanges (ranges : List (Char × Char)) (c : Char) : Bool :=
  ranges.any (fun r => r.1 ≤ c && c ≤ r.2)

/-- Match a tokenized `fnmatch` component pattern against a whole string.
Each recursive call shortens the pattern or the string, so a fuel of
`p.length + s.length + 1` never runs out. -/
def globMatch (fuel : Nat) (p : List GlobTok) (s : List Char) : Bool :=
  match fuel with
  | 0 => false
  | fuel + 1 =>
    match p, s with
    | [], [] => true
    | [], _ :: _ => false
    | GlobTok.star :: ps, [] => globMatch fuel ps []
    | GlobTok.star :: ps, c :: s1 =>
        globMatch fuel ps (c :: s1) || globMatch fuel (GlobTok.star :: ps) s1
    | GlobTok.anyChar :: ps, _ :: s1 => globMatch fuel ps s1
    | GlobTok.anyChar :: _, [] => false
    | GlobTok.cls neg ranges :: ps, c :: s1 =>
        (if neg then !inRanges ranges c else inRanges ranges c) &&
          globMatch fuel ps s1
    | GlobTok.cls _ _ :: _, [] => false
    | GlobTok.lit a :: ps, c :: s1 => a == c && globMatch fuel ps s1
    | GlobTok.lit _ :: _, [] => false

/-- Run an `fnmatch` match of one pattern component against one path component
(case-sensitive, as on a POSIX `PurePath`). -/
def fnmatchComponent (pat s : String) : Bool :=
  let toks := globTokenize (pat.data.length + 1) pat.data
  globMatch (toks.length + s.data.length + 1) toks s.data

/-- The components of a `PurePosixPath`: split on `/`, dropping empty
components and `.`. -/
def pathParts (s : String) : List String :=
  (pySplit s "/").filter (fun c => !(c == "" || c == "."))

/-- Componentwise `fnmatch` of pattern parts against path parts. -/
def matchParts : List String → List String → Bool
  | [], [] => true
  | p :: ps, c :: cs => fnmatchComponent p c && matchParts ps cs
  | _, _ => false

/-- Model of `PurePath(path).match(pattern)` (POSIX flavour).  A relative pattern is
matched from the right: the path's last `n` components must match the
pattern's `n` components; an absolute pattern must match the whole path.
`**` gets no special treatment (each component pattern is plain `fnmatch`,
so `**` behaves like `*`).  An empty pattern never matches (CPython raises
`ValueError` there). -/
def purePathMatch (path pattern : String) : Bool :=
  let pp := pathParts path
  let qq := pathParts pattern
  if qq.isEmpty then false
  else if startsWithChar '/' pattern then
    startsWithChar '/' path && pp.length == qq.length && matchParts qq pp
  else
    qq.length ≤ pp.length && matchParts qq (pp.drop (pp.length - qq.length))

/-- The `matches_any` from `filter_files_by_patterns`. -/
def matchesAny (path : String) (patterns : List String) : Bool :=
  patterns.any (fun p => purePathMatch path p)

/-- The `filter_files_by_patterns` from `services/diff_parser.py`: keep a file
iff (no include patterns, or some include pattern matches `new_path`) and
(no exclude pattern matches). -/
def filter_files_by_patterns (files : List FileDiff)
    (include_patterns exclude_patterns : List String) : List FileDiff :=
  files.filter (fun f =>
    (include_patterns.isEmpty || matchesAny f.new_path include_patterns) &&
    !(!exclude_patterns.isEmpty && matchesAny f.new_path exclude_patterns))

/-! ## Cost tracking (services/cost_tracker.py) -/

/-- A row of the `installations` table (fields used by `check_budget`). -/
structure InstallationRow where
  id : Nat
  is_active : Bool
  monthly_budget_cents : Int
deriving DecidableEq, Repr

/-- A row of the `repositories` table (fields used by `check_budget`). -/
structure RepositoryRow where
  id : Nat
  monthly_budget_cents : Option Int
deriving DecidableEq, Repr

/-- A row of the `usage_records` table. -/
structure UsageRow where
  installation_id : Nat
  year : Nat
  month : Nat
  total_input_tokens : Nat
  total_output_tokens : Nat
  total_cost_cents : Int
  total_reviews : Nat
deriving DecidableEq, Repr

/-- The database state read by `check_budget`. -/
structure BudgetDB where
  installations : List InstallationRow
  repositories : List RepositoryRow
  usage : List UsageRow
deriving DecidableEq, Repr

/-- The `calculate_cost_cents` from `services/cost_tracker.py`:
`int(input*rate_in/1e6 + output*rate_out/1e6)` — the float sum truncated
toward zero, here the exact rational floor (the operands are nonnegative). -/
def calculate_cost_cents (input_tokens output_tokens : Nat)
    (input_rate output_rate : Nat) : Nat :=
  (input_tokens * input_rate + output_tokens * output_rate) / 1000000

/-- The `check_budget` from `services/cost_tracker.py`.  Returns
`(has_budget, remaining_cents, budget_cents)`: `(false, 0, 0)` when the
installation is missing or inactive; otherwise the budget is the repository
override when present, else the installation's `monthly_budget_cents`, the
spend is the current month's `total_cost_cents` (0 with no usage row), and
`has_budget = (budget - spend > 0)`. -/
def check_budget (db : BudgetDB) (installation_id : Nat)
    (repository_id : Option Nat) (year month : Nat) :
    Bool × Int × Int :=
  match db.installations.find? (fun i => i.id == installation_id) with
  | none => (false, 0, 0)
  | some inst =>
      if !inst.is_active then (false, 0, 0)
      else
        let budget_cents :=
          match repository_id with
          | none => inst.monthly_budget_cents
          | some rid =>
              match db.repositories.find? (fun r => r.id == rid) with
              | some repo =>
                  match repo.monthly_budget_cents with
                  | some b => b
                  | none => inst.monthly_budget_cents
              | none => inst.monthly_budget_cents
        let current_spend :=
          match db.usage.find? (fun u =>
              u.installation_id == inst.id && u.year == year &&
              u.month == month) with
          | some u => u.total_cost_cents
          | none => 0
        let remaining := budget_cents - current_spend
        (remaining > 0, remaining, budget_cents)

/-! ## Python string helpers used by the engine -/

/-- Two-digit zero-padded rendering of `n % 100`-style remainders. -/
def pad2 (n : Nat) : String :=
  if n < 10 then "0" ++ toString n else toString n

/-- Model of `f"{cents / 100:.2f}"` for an integer number of cents. -/
def formatDollars2 (c : Int) : String :=
  let n := c.natAbs
  let base := toString (n / 100) ++ "." ++ pad2 (n % 100)
  if c < 0 then "-" ++ base else base

/-- Model of `f"{cents / 100:.3f}"` for a nonnegative integer number of cents. -/
def formatDollars3 (c : Nat) : String :=
  let frac := c % 100 * 10
  let fracStr :=
    if frac < 10 then "00" ++ toString frac
    else if frac < 100 then "0" ++ toString frac
    else toString frac
  toString (c / 100) ++ "." ++ fracStr

/-- Python `str.title()` (ASCII): the first letter of each run of letters is
uppercased, the rest lowercased. -/
def pythonTitle (s : String) : String :=
  let rec go : Bool → List Char → List Char
    | _, [] => []
    | prevCased, c :: rest =>
        if c.isAlpha then
          (if prevCased then c.toLower else c.toUpper) :: go true rest
        else c :: go false rest
  ⟨go false s.data⟩

/-! ## Review engine (services/review_engine.py)

`ReviewEngine.review_pull_request` is embedded as a pure function from an
`EngineEnv` — the repository row, the repo config, the database state read
by `check_budget`, and the responses of every external call the pipeline
makes (PR metadata fetch, check-run creation, diff fetch, PR re-fetch,
Claude) — to an `EngineResult` recording every observable effect: the final
Review row, the PR issue comments posted, the check-run updates issued, the
inline review comments persisted and posted, whether Claude was invoked, and
the usage recorded.

The environment carries the parse of the fetched diff (`parsed_files`) as a
separate field, so the theorems below quantify over a superset of the real
executions (any run of the source instantiates `parsed_files` with
`parse_diff(diff_text)`); universally quantified results therefore hold for
the source.  External calls are taken to succeed — the `except` path that
turns an exception into a FAILED review is outside every claim below except
as a status the claims' paths never produce. -/

/-- The PR metadata used by the engine (`gh.get_pull_request` response). -/
structure PRData where
  title : String
  author : String
  head_sha : String
  base_sha : String
  body : Option String
  changed_files : Nat
deriving DecidableEq, Repr

/-- One comment object of Claude's JSON response, as consumed by the engine
(`comment_data.get(...)` on each key; `message` is accessed unconditionally). -/
structure AIComment where
  file : Option String := none
  line : Option Nat := none
  severity : Option String := none
  category : Option String := none
  message : String
  suggested_fix : Option String := none
deriving DecidableEq, Repr

/-- The `ClaudeReviewResponse` from `services/claude_client.py`, as consumed by
the engine. -/
structure ClaudeResp where
  summary : String
  risk_level : String
  comments : List AIComment
  input_tokens : Nat
  output_tokens : Nat
deriving DecidableEq, Repr

/-- The fields of `ReviewConfig` (schemas/repo_config.py) the engine reads.
`include_patterns`/`exclude_patterns` are `config.paths.include` and
`config.paths.exclude`, named after the parameters of
`filter_files_by_patterns` they are passed to. -/
structure ReviewConfig where
  auto_review : Bool
  review_on : List String
  max_files : Nat
  include_patterns : List String
  exclude_patterns : List String
  context_files : List String
deriving DecidableEq, Repr

/-- The process `settings` fields the engine reads (config.py). -/
structure EngineSettings where
  max_diff_size_bytes : Nat
  enable_line_comments : Bool
  input_token_cost_per_million : Nat
  output_token_cost_per_million : Nat
deriving DecidableEq, Repr

/-- The Review row as mutated by the engine (`completed_at_set` models
whether `completed_at` was assigned). -/
structure ReviewRow where
  pr_number : Nat
  pr_title : String := ""
  pr_author : String := ""
  head_sha : String := ""
  base_sha : String := ""
  status : ReviewStatus
  trigger : ReviewTrigger
  triggered_by : Option String := none
  summary : Option String := none
  risk_level : Option String := none
  github_review_id : Option Nat := none
  github_check_run_id : Option Nat := none
  files_reviewed : Nat := 0
  comments_posted : Nat := 0
  input_tokens : Nat := 0
  output_tokens : Nat := 0
  cost_cents : Nat := 0
  error_message : Option String := none
  completed_at_set : Bool := false
deriving DecidableEq, Repr

/-- A `ReviewComment` row persisted by the engine. -/
structure DBComment where
  file_path : String
  line_number : Nat
  diff_position : Nat
  severity : CommentSeverity
  category : String
  message : String
  suggested_fix : Option String
deriving DecidableEq, Repr

/-- An inline comment sent to `gh.create_review`. -/
structure GHComment where
  path : String
  position : Nat
  body : String
deriving DecidableEq, Repr

/-- The environment of one `review_pull_request` run. -/
structure EngineEnv where
  pr_number : Nat
  repo_is_enabled : Bool
  repo_id : Nat
  installation_id : Nat
  config : ReviewConfig
  trigger : ReviewTrigger
  triggered_by : Option String
  db : BudgetDB
  year : Nat
  month : Nat
  pr : PRData
  check_run_created : Option Nat
  diff_text : String
  parsed_files : List FileDiff
  expected_head_sha : Option String
  refetch_head_sha : String
  claude : ClaudeResp
  github_review_id : Nat
  settings : EngineSettings
deriving Repr

/-- Every observable effect of one `review_pull_request` run.
`check_run_updates` lists the `update_check_run` calls as
`(check_run_id, status, conclusion)`. -/
structure EngineResult where
  review : ReviewRow
  issue_comments : List String
  check_run_updates : List (Nat × String × String)
  claude_called : Bool
  usage_recorded : Option (Nat × Nat × Nat)
  db_comments : List DBComment
  posted_review : Option (String × List GHComment)
deriving Repr

/-- The check-run conclusion map of `_update_check_run`
(review_engine.py lines 460-466). -/
def conclusionFor : ReviewStatus → String
  | .completed => "success"
  | .failed => "failure"
  | .skipped => "skipped"
  | .superseded => "cancelled"
  | _ => "neutral"

/-- The `_update_check_run`: a no-op without a check-run id, otherwise one
update to status `completed` with the mapped conclusion. -/
def updateCheckRun (row : ReviewRow) : List (Nat × String × String) :=
  match row.github_check_run_id with
  | none => []
  | some i => [(i, "completed", conclusionFor row.status)]

/-- The budget-exceeded PR comment (review_engine.py lines 95-97). -/
def budgetComment (budget_cents : Int) : String :=
  "**AI Review skipped**: " ++
    ("Monthly budget of $" ++ formatDollars2 budget_cents ++
        " has been exceeded" ++
      ". Reviews will resume next month or when the budget is increased.")

/-- The too-many-files PR comment (review_engine.py lines 154-156). -/
def tooManyFilesComment (changed_files max_files : Nat) : String :=
  "**AI Review skipped**: This PR changes " ++ toString changed_files ++
    " files, which exceeds the limit of " ++ toString max_files ++
    ". Use `@reviewer review path/to/specific/dir` to review specific paths."

/-- The diff-too-large PR comment (review_engine.py lines 171-172). -/
def tooLargeComment (max_diff_size_bytes : Nat) : String :=
  "**AI Review skipped**: Diff size exceeds " ++
    toString (max_diff_size_bytes / 1000) ++ "KB limit."

/-- The severity tag map of the comment loop (review_engine.py lines
270-275): `.get(severity, "[INFO]")`. -/
def severityTag (s : String) : String :=
  if s = "critical" then "[CRITICAL]"
  else if s = "warning" then "[WARNING]"
  else if s = "suggestion" then "[SUGGESTION]"
  else if s = "nitpick" then "[NITPICK]"
  else "[INFO]"

/-- Model of `CommentSeverity(severity_str)` with the `except ValueError` fallback to
`SUGGESTION` (review_engine.py lines 292-296). -/
def parseSeverity (s : String) : CommentSeverity :=
  if s = "critical" then .critical
  else if s = "warning" then .warning
  else if s = "suggestion" then .suggestion
  else if s = "nitpick" then .nitpick
  else if s = "praise" then .praise
  else .suggestion

/-- The risk tag map of the summary body (review_engine.py lines 311-316). -/
def riskTag (r : String) : String :=
  if r = "low" then "[OK]"
  else if r = "medium" then "[MEDIUM]"
  else if r = "high" then "[HIGH]"
  else if r = "critical" then "[CRITICAL]"
  else "[INFO]"

/-- One iteration of the comment loop (review_engine.py lines 261-308):
`none` when the comment's `(file, line)` is not in the position index
(the comment is dropped), otherwise the GitHub inline comment and the
persisted `ReviewComment` row. -/
def processComment (index : List (String × List (Nat × LinePosition)))
    (c : AIComment) : Option (GHComment × DBComment) :=
  match c.file with
  | none => none
  | some file_path =>
      match dictLookup file_path index with
      | none => none
      | some fileIndex =>
          match c.line with
          | none => none
          | some line_num =>
              match dictLookup line_num fileIndex with
              | none => none
              | some position =>
                  let severity_str := c.severity.getD "suggestion"
                  let tag := severityTag severity_str
                  let category := pythonTitle (c.category.getD "general")
                  let fixBlock :=
                    match c.suggested_fix with
                    | some fix =>
                        if fix = "" then ""
                        else "\n\n```suggestion\n" ++ fix ++ "\n```"
                    | none => ""
                  let body :=
                    tag ++ (" **" ++ category ++ "**: " ++ c.message ++ fixBlock)
                  some (⟨file_path, position.diff_position, body⟩,
                    ⟨file_path, line_num, position.diff_position,
                      parseSeverity severity_str, c.category.getD "general",
                      c.message, c.suggested_fix⟩)

/-- The review summary body (review_engine.py lines 318-327). -/
def summaryBody (resp : ClaudeResp) (files_count comment_count cost : Nat) :
    String :=
  "## AI Code Review\n\n" ++ riskTag resp.risk_level ++ " **Risk Level**: " ++
    asciiUpper resp.risk_level ++ "\n\n### Summary\n" ++ resp.summary ++
    "\n\n---\n<sub>Reviewed " ++ toString files_count ++ " files | " ++
    toString comment_count ++ " comments | Cost: $" ++ formatDollars3 cost ++
    "</sub>\n"

/-- The SUPERSEDED exit (review_engine.py lines 206-215 and 225-234):
set the status and the `Superseded by newer commit <short sha>` message,
set `completed_at`, finalize the check run, post nothing. -/
def supersededResult (row : ReviewRow) (new_sha : String) : EngineResult :=
  let row1 := { row with
    status := ReviewStatus.superseded,
    error_message := some ("Superseded by newer commit " ++ new_sha.take 8),
    completed_at_set := true }
  { review := row1, issue_comments := [],
    check_run_updates := updateCheckRun row1, claude_called := false,
    usage_recorded := none, db_comments := [], posted_review := none }

/-- Steps from the Claude call to the end of the happy path
(review_engine.py lines 236-369). -/
def stageClaude (env : EngineEnv) (row : ReviewRow)
    (filtered : List FileDiff) : EngineResult :=
  let resp := env.claude
  let cost := calculate_cost_cents resp.input_tokens resp.output_tokens
    env.settings.input_token_cost_per_million
    env.settings.output_token_cost_per_million
  let row1 := { row with
    input_tokens := resp.input_tokens, output_tokens := resp.output_tokens,
    cost_cents := cost, summary := some resp.summary,
    risk_level := some resp.risk_level }
  let index := build_position_index filtered
  let processed := resp.comments.filterMap (processComment index)
  let github_comments := processed.map Prod.fst
  let body := summaryBody resp filtered.length github_comments.length cost
  let posted :=
    if env.settings.enable_line_comments && !github_comments.isEmpty then
      some (body, github_comments)
    else some (body, ([] : List GHComment))
  let row2 := { row1 with
    github_review_id := some env.github_review_id,
    comments_posted := github_comments.length,
    status := ReviewStatus.completed, completed_at_set := true }
  { review := row2, issue_comments := [],
    check_run_updates := updateCheckRun row2, claude_called := true,
    usage_recorded := some (resp.input_tokens, resp.output_tokens, cost),
    db_comments := processed.map Prod.snd, posted_review := posted }

/-- The two supersede checks bracketing the Claude call
(review_engine.py lines 199-234).  The first fires when a (truthy)
`expected_head_sha` differs from the fetched PR head; the second when the
re-fetched head differs from the fetched head. -/
def stageSupersede (env : EngineEnv) (row : ReviewRow)
    (filtered : List FileDiff) : EngineResult :=
  let fired1 :=
    match env.expected_head_sha with
    | some e => !(e == "") && !(e == env.pr.head_sha)
    | none => false
  if fired1 then supersededResult row env.pr.head_sha
  else if env.refetch_head_sha != env.pr.head_sha then
    supersededResult row env.refetch_head_sha
  else stageClaude env row filtered

/-- The parse-and-filter step (review_engine.py lines 179-197): with no
files left the review COMPLETEs with the no-files summary (without touching
the check run or `completed_at`); otherwise `files_reviewed` is set and the
pipeline continues. -/
def stageFilter (env : EngineEnv) (row : ReviewRow) : EngineResult :=
  let filtered := filter_files_by_patterns env.parsed_files
    env.config.include_patterns env.config.exclude_patterns
  if filtered.isEmpty then
    let row1 := { row with
      status := ReviewStatus.completed,
      summary := some "No files to review after applying path filters.",
      risk_level := some "low" }
    { review := row1, issue_comments := [], check_run_updates := [],
      claude_called := false, usage_recorded := none, db_comments := [],
      posted_review := none }
  else
    stageSupersede env { row with files_reviewed := filtered.length } filtered

/-- The diff-size gate (review_engine.py lines 163-177): a diff strictly
larger than `max_diff_size_bytes` SKIPs with a PR comment, without touching
the check run. -/
def stageDiffSize (env : EngineEnv) (row : ReviewRow) : EngineResult :=
  if env.diff_text.length > env.settings.max_diff_size_bytes then
    let row1 := { row with
      status := ReviewStatus.skipped,
      error_message := some "Diff too large" }
    { review := row1,
      issue_comments := [tooLargeComment env.settings.max_diff_size_bytes],
      check_run_updates := [], claude_called := false, usage_recorded := none,
      db_comments := [], posted_review := none }
  else stageFilter env row

/-- The file-count gate (review_engine.py lines 148-161): strictly more
changed files than `config.max_files` SKIPs with a PR comment, without
touching the check run. -/
def stageFileCount (env : EngineEnv) (row : ReviewRow) : EngineResult :=
  if env.pr.changed_files > env.config.max_files then
    let row1 := { row with
      status := ReviewStatus.skipped,
      error_message :=
        some ("Too many files: " ++ toString env.pr.changed_files) }
    { review := row1,
      issue_comments :=
        [tooManyFilesComment env.pr.changed_files env.config.max_files],
      check_run_updates := [], claude_called := false, usage_recorded := none,
      db_comments := [], posted_review := none }
  else stageDiffSize env row

/-- The Review row after the PR fetch and the best-effort check-run creation
(review_engine.py lines 104-146). -/
def rowAfterFetch (env : EngineEnv) : ReviewRow :=
  { pr_number := env.pr_number, status := ReviewStatus.in_progress,
    trigger := env.trigger, triggered_by := env.triggered_by,
    pr_title := env.pr.title, pr_author := env.pr.author,
    head_sha := env.pr.head_sha, base_sha := env.pr.base_sha,
    github_check_run_id := env.check_run_created }

/-- The `_create_skipped_review` (review_engine.py lines 421-444). -/
def skippedResult (env : EngineEnv) (reason : String) : EngineResult :=
  let row : ReviewRow :=
    { pr_number := env.pr_number, status := ReviewStatus.skipped,
      trigger := env.trigger, triggered_by := env.triggered_by,
      error_message := some reason }
  { review := row, issue_comments := [], check_run_updates := [],
    claude_called := false, usage_recorded := none, db_comments := [],
    posted_review := none }

/-- The `trigger_map.get(trigger)` of the review-on gate
(review_engine.py lines 75-79). -/
def triggerMapGet : ReviewTrigger → Option String
  | .pr_opened => some "opened"
  | .pr_synchronize => some "synchronize"
  | .pr_reopened => some "reopened"
  | .command => none

/-- The auto-review gate passes when the trigger is COMMAND or
`config.auto_review` is set (review_engine.py line 69). -/
def autoReviewGate (env : EngineEnv) : Bool :=
  env.trigger == ReviewTrigger.command || env.config.auto_review

/-- The review-on gate passes when the trigger is COMMAND or its mapped name
is in `config.review_on` (review_engine.py line 80). -/
def triggerGate (env : EngineEnv) : Bool :=
  env.trigger == ReviewTrigger.command ||
    (match triggerMapGet env.trigger with
     | some s => env.config.review_on.contains s
     | none => false)

/-- The `ReviewEngine.review_pull_request` (review_engine.py lines 35-387),
on the executions where every external call succeeds. -/
def review_pull_request (env : EngineEnv) : EngineResult :=
  if !env.repo_is_enabled then
    skippedResult env "Reviews disabled for this repository"
  else if !autoReviewGate env then
    skippedResult env "Auto-review disabled"
  else if !triggerGate env then
    skippedResult env ("Trigger " ++ env.trigger.value ++ " not enabled")
  else
    let budget := check_budget env.db env.installation_id (some env.repo_id)
      env.year env.month
    if !budget.1 then
      { skippedResult env "Budget exceeded" with
        issue_comments := [budgetComment budget.2.2] }
    else
      stageFileCount env (rowAfterFetch env)

/-! ## JSON decoding (model of Python `json.loads`)

An executable recursive-descent parser for the JSON accepted by CPython's
`json.loads` with default arguments: RFC-8259 values plus the constants
`NaN`, `Infinity` and `-Infinity`; whitespace is space, tab, LF, CR; the
whole input must be consumed.  Number and string VALUES are kept only as
precisely as the claims need (numbers keep their lexeme; escape sequences
decode to single characters). -/

/-- A decoded JSON value.  Object member lists keep every member in source
order; lookups take the last occurrence of a key, as a Python dict literal
built by repeated assignment does. -/
inductive JVal where
  | null
  | boolean (b : Bool)
  | num (lexeme : String)
  | str (s : String)
  | arr (xs : List JVal)
  | obj (fields : List (String × JVal))

/-- Last-occurrence lookup in a JSON object (duplicate keys: last wins). -/
def jsonGet (fields : List (String × JVal)) (k : String) : Option JVal :=
  (fields.reverse.find? (fun f => f.1 == k)).map Prod.snd

/-- JSON whitespace. -/
def isJsonWs (c : Char) : Bool :=
  c == ' ' || c == '\t' || c == '\n' || c == '\r'

/-- Skip leading JSON whitespace. -/
def skipWs : List Char → List Char
  | [] => []
  | c :: rest => if isJsonWs c then skipWs rest else c :: rest

/-- ASCII decimal digit. -/
def isDigitChar (c : Char) : Bool := '0' ≤ c && c ≤ '9'

/-- ASCII hex digit. -/
def isHexChar (c : Char) : Bool :=
  isDigitChar c || ('a' ≤ c && c ≤ 'f') || ('A' ≤ c && c ≤ 'F')

/-- Take a maximal run of decimal digits. -/
def takeDigits : List Char → List Char × List Char
  | [] => ([], [])
  | c :: rest =>
      if isDigitChar c then
        let r := takeDigits rest
        (c :: r.1, r.2)
      else ([], c :: rest)

/-- Parse the body of a JSON string after the opening quote, decoding escape
sequences; fails on control characters, bad escapes, or a missing closing
quote. -/
def parseStringBody (fuel : Nat) (acc : List Char) (cs : List Char) :
    Option (String × List Char) :=
  match fuel with
  | 0 => none
  | fuel + 1 =>
    match cs with
    | [] => none
    | '"' :: rest => some (⟨acc.reverse⟩, rest)
    | '\\' :: esc :: rest =>
        if esc = '"' then parseStringBody fuel ('"' :: acc) rest
        else if esc = '\\' then parseStringBody fuel ('\\' :: acc) rest
        else if esc = '/' then parseStringBody fuel ('/' :: acc) rest
        else if esc = 'b' then parseStringBody fuel ('\x08' :: acc) rest
        else if esc = 'f' then parseStringBody fuel ('\x0c' :: acc) rest
        else if esc = 'n' then parseStringBody fuel ('\n' :: acc) rest
        else if esc = 'r' then parseStringBody fuel ('\r' :: acc) rest
        else if esc = 't' then parseStringBody fuel ('\t' :: acc) rest
        else if esc = 'u' then
          match rest with
          | h1 :: h2 :: h3 :: h4 :: rest1 =>
              if isHexChar h1 && isHexChar h2 && isHexChar h3 && isHexChar h4
              then
                let v := [h1, h2, h3, h4].foldl
                  (fun n c =>
                    n * 16 +
                      (if isDigitChar c then c.toNat - '0'.toNat
                       else if 'a' ≤ c then c.toNat - 'a'.toNat + 10
                       else c.toNat - 'A'.toNat + 10))
                  0
                parseStringBody fuel (Char.ofNat v :: acc) rest1
              else none
          | _ => none
        else none
    | '\\' :: [] => none
    | c :: rest =>
        if c.toNat < 32 then none else parseStringBody fuel (c :: acc) rest

/-- Parse a JSON number at `cs` (sign already included in `cs`); returns its
lexeme.  Grammar: `-? (0 | [1-9][0-9]*) (. [0-9]+)? ([eE][+-]?[0-9]+)?`. -/
def parseNumber (cs : List Char) : Option (String × List Char) :=
  let afterSign := match cs with
    | '-' :: rest => rest
    | _ => cs
  match afterSign with
  | [] => none
  | d :: _ =>
      if !isDigitChar d then none
      else
        let intPart := takeDigits afterSign
        -- leading zero may not be followed by more digits
        if d = '0' && intPart.1.length > 1 then none
        else
          let afterInt := intPart.2
          let fracState : Option (List Char) :=
            match afterInt with
            | '.' :: rest =>
                let fr := takeDigits rest
                if fr.1.isEmpty then none else some fr.2
            | _ => some afterInt
          match fracState with
          | none => none
          | some afterFrac =>
              let expState : Option (List Char) :=
                match afterFrac with
                | e :: rest =>
                    if e = 'e' || e = 'E' then
                      let rest1 := match rest with
                        | '+' :: r => r
                        | '-' :: r => r
                        | r => r
                      let ex := takeDigits rest1
                      if ex.1.isEmpty then none else some ex.2
                    else some afterFrac
                | [] => some afterFrac
              match expState with
              | none => none
              | some afterExp =>
                  let len := cs.length - afterExp.length
                  some (⟨cs.take len⟩, afterExp)

mutual

/-- Parse one JSON value. -/
def parseJValue (fuel : Nat) (cs : List Char) : Option (JVal × List Char) :=
  match fuel with
  | 0 => none
  | fuel + 1 =>
    match cs with
    | [] => none
    | 'n' :: 'u' :: 'l' :: 'l' :: rest => some (JVal.null, rest)
    | 't' :: 'r' :: 'u' :: 'e' :: rest => some (JVal.boolean true, rest)
    | 'f' :: 'a' :: 'l' :: 's' :: 'e' :: rest => some (JVal.boolean false, rest)
    | 'N' :: 'a' :: 'N' :: rest => some (JVal.num "NaN", rest)
    | 'I' :: 'n' :: 'f' :: 'i' :: 'n' :: 'i' :: 't' :: 'y' :: rest =>
        some (JVal.num "Infinity", rest)
    | '-' :: 'I' :: 'n' :: 'f' :: 'i' :: 'n' :: 'i' :: 't' :: 'y' :: rest =>
        some (JVal.num "-Infinity", rest)
    | '"' :: rest =>
        match parseStringBody (rest.length + 1) [] rest with
        | some (s, rest1) => some (JVal.str s, rest1)
        | none => none
    | '[' :: rest =>
        (match skipWs rest with
         | ']' :: rest1 => some (JVal.arr [], rest1)
         | cs1 => parseJElems fuel [] cs1)
    | '{' :: rest =>
        (match skipWs rest with
         | '}' :: rest1 => some (JVal.obj [], rest1)
         | cs1 => parseJMembers fuel [] cs1)
    | cs1 => (parseNumber cs1).map (fun r => (JVal.num r.1, r.2))

/-- Parse the remaining elements of a (nonempty) JSON array. -/
def parseJElems (fuel : Nat) (acc : List JVal) (cs : List Char) :
    Option (JVal × List Char) :=
  match fuel with
  | 0 => none
  | fuel + 1 =>
    match parseJValue fuel (skipWs cs) with
    | none => none
    | some (v, rest) =>
        match skipWs rest with
        | ',' :: rest1 => parseJElems fuel (v :: acc) rest1
        | ']' :: rest1 => some (JVal.arr (v :: acc).reverse, rest1)
        | _ => none

/-- Parse the remaining members of a (nonempty) JSON object. -/
def parseJMembers (fuel : Nat) (acc : List (String × JVal)) (cs : List Char) :
    Option (JVal × List Char) :=
  match fuel with
  | 0 => none
  | fuel + 1 =>
    match skipWs cs with
    | '"' :: rest =>
        (match parseStringBody (rest.length + 1) [] rest with
         | none => none
         | some (k, rest1) =>
             match skipWs rest1 with
             | ':' :: rest2 =>
                 (match parseJValue fuel (skipWs rest2) with
                  | none => none
                  | some (v, rest3) =>
                      match skipWs rest3 with
                      | ',' :: rest4 => parseJMembers fuel ((k, v) :: acc) rest4
                      | '}' :: rest4 =>
                          some (JVal.obj ((k, v) :: acc).reverse, rest4)
                      | _ => none)
             | _ => none)
    | _ => none

end

/-- Model of `json.loads`: parse one JSON document, requiring the remaining input to
be whitespace; `none` models a raised `json.JSONDecodeError`. -/
def jsonLoads (s : String) : Option JVal :=
  match parseJValue (s.data.length + 1) (skipWs s.data) with
  | some (v, rest) => if (skipWs rest).isEmpty then some v else none
  | none => none

/-! ## Claude client response handling (services/claude_client.py) -/

/-- The code-fence stripping of `ClaudeClient.review_diff` (lines 140-146):
with a ```json fence anywhere, the text between it and the next ``` is
kept; otherwise with any ``` fence, the text after the first one. -/
def stripCodeFence (text : String) : String :=
  match pySplit text "```json" with
  | _ :: p1 :: _ =>
      match pySplit p1 "```" with
      | p0 :: _ => p0
      | [] => p1
  | _ =>
      match pySplit text "```" with
      | _ :: p1 :: _ => p1
      | _ => text

/-- The value triple `(summary, risk_level, comments)` a `review_diff` call
hands on, each field as `data.get` leaves it. -/
structure ClaudeParsed where
  summary : JVal
  risk_level : JVal
  comments : JVal
  input_tokens : Nat
  output_tokens : Nat

/-- The response-parsing tail of `ClaudeClient.review_diff` (lines 137-167):
strip a code fence, `json.loads` the stripped text; on decode failure build
the fallback dict (summary = "Failed to parse structured response. Raw
output: " + first 500 characters of the stripped text, risk "medium", no
comments) — on success read the fields with `data.get` defaults (`.error`
models the `AttributeError` raised when the decoded value is not a dict). -/
def review_diff_parse (response_text : String)
    (input_tokens output_tokens : Nat) : Except String ClaudeParsed :=
  let stripped := stripCodeFence response_text
  match jsonLoads (pyStrip stripped) with
  | some (JVal.obj fields) =>
      Except.ok
        { summary := (jsonGet fields "summary").getD (JVal.str ""),
          risk_level := (jsonGet fields "risk_level").getD (JVal.str "medium"),
          comments := (jsonGet fields "comments").getD (JVal.arr []),
          input_tokens := input_tokens, output_tokens := output_tokens }
  | some _ => Except.error "AttributeError"
  | none =>
      Except.ok
        { summary := JVal.str
            ("Failed to parse structured response. Raw output: " ++
              pyTake stripped 500),
          risk_level := JVal.str "medium", comments := JVal.arr [],
          input_tokens := input_tokens, output_tokens := output_tokens }

/-! ## GitHub client (services/github_client.py, utils/github_auth.py) -/

/-- An HTTP response as seen by the client: a status code and (for
`get_pull_request`) the decoded JSON body. -/
structure HttpResponse where
  status : Nat
  pr : PRData
deriving DecidableEq, Repr

/-- Model of `httpx.Response.raise_for_status`: a 2xx response is returned, anything
else raises (`Except.error` carries the status). -/
def raiseForStatus (r : HttpResponse) : Except Nat HttpResponse :=
  if 200 ≤ r.status && r.status ≤ 299 then Except.ok r
  else Except.error r.status

/-- The `GitHubClient.get_pull_request` (github_client.py lines 37-47): one GET,
then `raise_for_status`, then the JSON body.  The second component is the
number of HTTP requests the call issues — the body performs exactly one,
whatever the response status; there is no retry and no token invalidation
anywhere in the client.  `http n` is the response to the n-th request the
call would make. -/
def get_pull_request (http : Nat → HttpResponse) :
    Except Nat PRData × Nat :=
  let response := http 0
  match raiseForStatus response with
  | Except.ok r => (Except.ok r.pr, 1)
  | Except.error s => (Except.error s, 1)

/-- The installation-token cache of `utils/github_auth.py`: a process-wide
dict from installation id to `(token, expires_at)`. -/
def TokenCache : Type := List (Nat × String × Int)

/-- The `get_installation_token` (github_auth.py lines 27-54): return the cached
token while `now < expires_at - 60`; otherwise exchange the app JWT for a
fresh token (`fresh`) and cache it until `now + 3500`.  Returns the token
and the new cache state; the cache is never invalidated by any response
status. -/
def get_installation_token (cache : TokenCache) (now : Int)
    (installation_id : Nat) (fresh : String) : String × TokenCache :=
  match dictLookup installation_id cache with
  | some (token, expires_at) =>
      if now < expires_at - 60 then (token, cache)
      else (fresh, dictInsert installation_id (fresh, now + 3500) cache)
  | none => (fresh, dictInsert installation_id (fresh, now + 3500) cache)

/-! ## Webhook dispatch and the review task
(api/webhooks.py, tasks/review_tasks.py) -/

/-- The fields of a `pull_request` webhook event the dispatcher reads. -/
structure PullRequestEvent where
  action : String
  installation_id : Nat
  repo_full_name : String
  number : Nat
  head_sha : String
deriving DecidableEq, Repr

/-- A deferred `process_pull_request` job as the webhook handler builds it:
the queueing lock, the schedule delay, and the five keyword arguments
passed to `defer_async` (webhooks.py lines 42-83). -/
structure ScheduledJob where
  queueing_lock : String
  delay_seconds : Nat
  installation_id : Nat
  repo_full_name : String
  pr_number : Nat
  action : String
  head_sha : String
deriving DecidableEq, Repr

/-- The `pull_request` arm of `github_webhook` (webhooks.py lines 43-83):
for action opened/synchronize/reopened, defer `process_pull_request` under
the `pr:{full_name}:{number}` lock — immediately for opened/reopened,
after the debounce delay for synchronize — passing `head_sha =
event.pull_request.head.sha` among the keyword arguments. -/
def dispatch_pull_request (review_debounce_seconds : Nat)
    (e : PullRequestEvent) : Option ScheduledJob :=
  if e.action = "opened" || e.action = "synchronize" ||
      e.action = "reopened" then
    let lock_key := "pr:" ++ e.repo_full_name ++ ":" ++ toString e.number
    let delay :=
      if e.action = "opened" || e.action = "reopened" then 0
      else review_debounce_seconds
    some ⟨lock_key, delay, e.installation_id, e.repo_full_name, e.number,
      e.action, e.head_sha⟩
  else none

/-- The parameter names of the task function `process_pull_request`
(review_tasks.py lines 12-17). -/
def processPullRequestParams : List String :=
  ["installation_id", "repo_full_name", "pr_number", "action"]

/-- The keyword-argument names the webhook handler defers the job with
(webhooks.py lines 60-66 and 76-82). -/
def deferredKwargNames : List String :=
  ["installation_id", "repo_full_name", "pr_number", "action", "head_sha"]

/-- The arguments `ReviewEngine.review_pull_request` is invoked with. -/
structure EngineCallArgs where
  github_installation_id : Nat
  repo_full_name : String
  pr_number : Nat
  trigger : ReviewTrigger
  triggered_by : Option String
  expected_head_sha : Option String
deriving DecidableEq, Repr

/-- The `trigger_map.get(action, ReviewTrigger.PR_OPENED)` of the task body
(review_tasks.py lines 19-24). -/
def actionTrigger (action : String) : ReviewTrigger :=
  if action = "opened" then ReviewTrigger.pr_opened
  else if action = "synchronize" then ReviewTrigger.pr_synchronize
  else if action = "reopened" then ReviewTrigger.pr_reopened
  else ReviewTrigger.pr_opened

/-- The body of the task `process_pull_request` (review_tasks.py lines
11-33): the engine call it makes.  The task signature has no `head_sha`
parameter, and the call passes `triggered_by` and `expected_head_sha` as
their defaults (`None`). -/
def process_pull_request (installation_id : Nat) (repo_full_name : String)
    (pr_number : Nat) (action : String) : EngineCallArgs :=
  { github_installation_id := installation_id,
    repo_full_name := repo_full_name, pr_number := pr_number,
    trigger := actionTrigger action, triggered_by := none,
    expected_head_sha := none }

/-! ## Lemmas: the Python-dict model -/

/-- Fold a list of entries into a dict, left to right. -/
def insertAll {α β : Type} [DecidableEq α]
    (l acc : List (α × β)) : List (α × β) :=
  l.foldl (fun a e => dictInsert e.1 e.2 a) acc

theorem insertAll_cons {α β : Type} [DecidableEq α] (k : α) (v : β)
    (l acc : List (α × β)) :
    insertAll ((k, v) :: l) acc = insertAll l (dictInsert k v acc) := rfl

theorem insertAll_append {α β : Type} [DecidableEq α]
    (l1 l2 acc : List (α × β)) :
    insertAll (l1 ++ l2) acc = insertAll l2 (insertAll l1 acc) := by
  simp [insertAll, List.foldl_append]

theorem mem_dictInsert {α β : Type} [DecidableEq α] (k : α) (v : β)
    (l : List (α × β)) (e : α × β) (h : e ∈ dictInsert k v l) :
    e = (k, v) ∨ e ∈ l := by
  induction l with
  | nil => simpa [dictInsert] using h
  | cons hd tl ih =>
    obtain ⟨k1, v1⟩ := hd
    simp only [dictInsert] at h
    split at h
    · rcases List.mem_cons.mp h with h1 | h1
      · exact Or.inl h1
      · exact Or.inr (List.mem_cons_of_mem _ h1)
    · rcases List.mem_cons.mp h with h1 | h1
      · exact Or.inr (h1 ▸ List.mem_cons_self _ _)
      · rcases ih h1 with h2 | h2
        · exact Or.inl h2
        · exact Or.inr (List.mem_cons_of_mem _ h2)

theorem dictLookup_dictInsert_self {α β : Type} [DecidableEq α] (k : α)
    (v : β) (l : List (α × β)) :
    dictLookup k (dictInsert k v l) = some v := by
  induction l with
  | nil => simp [dictInsert, dictLookup]
  | cons hd tl ih =>
    obtain ⟨k1, v1⟩ := hd
    by_cases hk : k1 = k
    · simp [dictInsert, dictLookup, hk]
    · simp [dictInsert, dictLookup, hk, ih]

theorem dictLookup_dictInsert_ne {α β : Type} [DecidableEq α] {k k1 : α}
    (v1 : β) (l : List (α × β)) (h : k1 ≠ k) :
    dictLookup k (dictInsert k1 v1 l) = dictLookup k l := by
  induction l with
  | nil => simp [dictInsert, dictLookup, h]
  | cons hd tl ih =>
    obtain ⟨k2, v2⟩ := hd
    by_cases hk : k2 = k1
    · subst hk; simp [dictInsert, dictLookup, h]
    · by_cases hk2 : k2 = k
      · subst hk2
        simp [dictInsert, dictLookup, Ne.symm h]
      · simp [dictInsert, dictLookup, hk, hk2, ih]

theorem mem_insertAll {α β : Type} [DecidableEq α] :
    ∀ (l acc : List (α × β)) (e : α × β),
      e ∈ insertAll l acc → e ∈ l ∨ e ∈ acc := by
  intro l
  induction l with
  | nil => intro acc e h; exact Or.inr h
  | cons hd tl ih =>
    intro acc e h
    obtain ⟨k, v⟩ := hd
    rw [insertAll_cons] at h
    rcases ih _ _ h with h1 | h1
    · exact Or.inl (List.mem_cons_of_mem _ h1)
    · rcases mem_dictInsert k v acc e h1 with h2 | h2
      · exact Or.inl (h2 ▸ List.mem_cons_self _ _)
      · exact Or.inr h2

theorem dictLookup_insertAll_not_mem {α β : Type} [DecidableEq α] :
    ∀ (l acc : List (α × β)) (k : α), k ∉ l.map Prod.fst →
      dictLookup k (insertAll l acc) = dictLookup k acc := by
  intro l
  induction l with
  | nil => intro acc k _; rfl
  | cons hd tl ih =>
    intro acc k h
    obtain ⟨k1, v1⟩ := hd
    simp only [List.map_cons, List.mem_cons] at h
    push_neg at h
    rw [insertAll_cons, ih _ _ h.2]
    exact dictLookup_dictInsert_ne v1 acc (Ne.symm h.1)

theorem dictLookup_insertAll_nodup {α β : Type} [DecidableEq α] :
    ∀ (l acc : List (α × β)) (k : α) (v : β),
      (l.map Prod.fst).Nodup → (k, v) ∈ l →
      dictLookup k (insertAll l acc) = some v := by
  intro l
  induction l with
  | nil => intro acc k v _ h; simp at h
  | cons hd tl ih =>
    intro acc k v hnd hm
    obtain ⟨k1, v1⟩ := hd
    simp only [List.map_cons, List.nodup_cons] at hnd
    rw [insertAll_cons]
    rcases List.mem_cons.mp hm with h1 | h1
    · simp only [Prod.mk.injEq] at h1
      obtain ⟨hk, hv⟩ := h1
      subst hk
      subst hv
      rw [dictLookup_insertAll_not_mem _ _ _ hnd.1,
        dictLookup_dictInsert_self]
    · exact ih _ _ _ hnd.2 h1

/-! ## Lemmas: the diff-position index (claim C5) -/

theorem not_deletion_of_plus {l : String}
    (h : startsWithChar '+' l = true) : isDeletionLine l = false := by
  simp only [startsWithChar, isDeletionLine] at *
  cases hd : l.data.head? with
  | none => rw [hd] at h; simp at h
  | some c =>
      rw [hd] at h
      have hc : c = '+' := by simpa using h
      subst hc
      decide

theorem processHunkLines_eq (path : String) :
    ∀ (ls : List String) (dp nl : Nat) (acc : List (Nat × LinePosition)),
      processHunkLines path dp nl ls acc =
        (dp + ls.length, insertAll (hunkEntries path dp nl ls) acc) := by
  intro ls
  induction ls with
  | nil => intro dp nl acc; simp [processHunkLines, hunkEntries, insertAll]
  | cons l rest ih =>
    intro dp nl acc
    by_cases h1 : startsWithChar '+' l
    · simp only [processHunkLines, hunkEntries, h1, if_true, insertAll_cons]
      rw [ih]
      exact Prod.ext (by simp; omega) rfl
    · by_cases h2 : startsWithChar '-' l
      · simp only [processHunkLines, hunkEntries, h1, h2, if_true,
          if_false, Bool.false_eq_true]
        rw [ih]
        exact Prod.ext (by simp; omega) rfl
      · simp only [processHunkLines, hunkEntries, h1, h2, if_false,
          Bool.false_eq_true, insertAll_cons]
        rw [ih]
        exact Prod.ext (by simp; omega) rfl

theorem processHunks_eq (path : String) :
    ∀ (hs : List DiffHunk) (dp : Nat) (acc : List (Nat × LinePosition)),
      processHunks path dp acc hs = insertAll (fileEntries path dp hs) acc := by
  intro hs
  induction hs with
  | nil => intro dp acc; rfl
  | cons h hs1 ih =>
    intro dp acc
    simp only [processHunks, fileEntries]
    rw [processHunkLines_eq]
    rw [insertAll_append]
    exact ih _ _

theorem get_line_positions_eq (fd : FileDiff)
    (h : (fd.is_deleted || fd.is_binary) = false) :
    get_line_positions fd = insertAll (fileEntries fd.new_path 0 fd.hunks) [] := by
  rw [get_line_positions, if_neg (by simp [h]), processHunks_eq]

/-- Predicate: a body line that is a context or addition line. -/
def isContentNonDeletion : BodyLine → Bool
  | BodyLine.header => false
  | BodyLine.content l => !isDeletionLine l

theorem hunkEntries_sound (path : String) :
    ∀ (ls : List String) (dp nl : Nat) (e : Nat × LinePosition),
      e ∈ hunkEntries path dp nl ls →
      ∃ j l, ls.get? j = some l ∧ isDeletionLine l = false ∧
        e.2.diff_position = dp + j + 1 ∧ e.2.content = lineContent l ∧
        e.2.is_addition = startsWithChar '+' l ∧
        e.2.line_number = e.1 ∧ e.2.file_path = path := by
  intro ls
  induction ls with
  | nil => intro dp nl e h; simp [hunkEntries] at h
  | cons l rest ih =>
    intro dp nl e h
    by_cases h1 : startsWithChar '+' l
    · rw [hunkEntries, if_pos h1] at h
      rcases List.mem_cons.mp h with h2 | h2
      · refine ⟨0, l, rfl, not_deletion_of_plus h1, ?_, ?_, ?_, ?_, ?_⟩ <;>
          subst h2 <;> simp [lineContent, h1]
      · obtain ⟨j, l1, hj, hdel, hpos, hcont, hadd, hln, hfp⟩ := ih _ _ _ h2
        exact ⟨j + 1, l1, by simpa using hj, hdel, by omega, hcont, hadd,
          hln, hfp⟩
    · by_cases h2 : startsWithChar '-' l
      · rw [hunkEntries, if_neg (by simp [h1]), if_pos h2] at h
        obtain ⟨j, l1, hj, hdel, hpos, hcont, hadd, hln, hfp⟩ := ih _ _ _ h
        exact ⟨j + 1, l1, by simpa using hj, hdel, by omega, hcont, hadd,
          hln, hfp⟩
      · rw [hunkEntries, if_neg (by simp [h1]), if_neg (by simp [h2])] at h
        rcases List.mem_cons.mp h with h3 | h3
        · refine ⟨0, l, rfl, by simp [isDeletionLine, h2], ?_, ?_, ?_, ?_, ?_⟩ <;>
            subst h3 <;> simp [lineContent, h1, h2]
        · obtain ⟨j, l1, hj, hdel, hpos, hcont, hadd, hln, hfp⟩ := ih _ _ _ h3
          exact ⟨j + 1, l1, by simpa using hj, hdel, by omega, hcont, hadd,
            hln, hfp⟩

theorem fileEntries_sound (path : String) :
    ∀ (hs : List DiffHunk) (dp : Nat) (e : Nat × LinePosition),
      e ∈ fileEntries path dp hs →
      ∃ l, (bodyOf hs).get? (e.2.diff_position - dp - 1) =
          some (BodyLine.content l) ∧
        isDeletionLine l = false ∧ dp + 1 < e.2.diff_position ∧
        e.2.content = lineContent l ∧
        e.2.is_addition = startsWithChar '+' l ∧
        e.2.line_number = e.1 ∧ e.2.file_path = path := by
  intro hs
  induction hs with
  | nil => intro dp e h; simp [fileEntries] at h
  | cons h hs1 ih =>
    intro dp e hmem
    rw [fileEntries] at hmem
    rcases List.mem_append.mp hmem with h1 | h1
    · obtain ⟨j, l, hj, hdel, hpos, hcont, hadd, hln, hfp⟩ :=
        hunkEntries_sound path _ _ _ _ h1
      have hjlt : j < h.lines.length := List.get?_eq_some.mp hj |>.1
      refine ⟨l, ?_, hdel, by omega, hcont, hadd, hln, hfp⟩
      have hidx : e.2.diff_position - dp - 1 = j + 1 := by omega
      rw [hidx]
      show (BodyLine.header :: (h.lines.map BodyLine.content ++ bodyOf hs1)).get?
          (j + 1) = some (BodyLine.content l)
      rw [List.get?_cons_succ]
      rw [List.get?_append (by simpa using hjlt)]
      rw [List.get?_map, hj]
      rfl
    · obtain ⟨l, hj, hdel, hpos, hcont, hadd, hln, hfp⟩ := ih _ _ h1
      refine ⟨l, ?_, hdel, by omega, hcont, hadd, hln, hfp⟩
      have hL : (h.lines.map BodyLine.content).length = h.lines.length := by
        simp
      show (BodyLine.header :: (h.lines.map BodyLine.content ++ bodyOf hs1)).get?
          (e.2.diff_position - dp - 1) = some (BodyLine.content l)
      have hge : e.2.diff_position ≥ dp + h.lines.length + 3 := by omega
      have hidx : e.2.diff_position - dp - 1 = (e.2.diff_position - dp - 2) + 1 := by
        omega
      rw [hidx, List.get?_cons_succ]
      rw [List.get?_append_right (by simp; omega)]
      have hidx2 : e.2.diff_position - dp - 2 - (h.lines.map BodyLine.content).length =
          e.2.diff_position - (dp + 1 + h.lines.length) - 1 := by
        simp; omega
      rw [hidx2]
      exact hj

theorem hunkEntries_length (path : String) :
    ∀ (ls : List String) (dp nl : Nat),
      (hunkEntries path dp nl ls).length =
        (ls.filter (fun l => !isDeletionLine l)).length := by
  intro ls
  induction ls with
  | nil => intro dp nl; simp [hunkEntries]
  | cons l rest ih =>
    intro dp nl
    by_cases h1 : startsWithChar '+' l
    · rw [hunkEntries, if_pos h1]
      simp [List.filter_cons, not_deletion_of_plus h1, ih]
    · by_cases h2 : startsWithChar '-' l
      · rw [hunkEntries, if_neg (by simp [h1]), if_pos h2]
        have : isDeletionLine l = true := by simp [isDeletionLine, h2]
        simp [List.filter_cons, this, ih]
      · rw [hunkEntries, if_neg (by simp [h1]), if_neg (by simp [h2])]
        have : isDeletionLine l = false := by simp [isDeletionLine, h2]
        simp [List.filter_cons, this, ih]

theorem fileEntries_length (path : String) :
    ∀ (hs : List DiffHunk) (dp : Nat),
      (fileEntries path dp hs).length =
        ((bodyOf hs).filter isContentNonDeletion).length := by
  intro hs
  induction hs with
  | nil => intro dp; simp [fileEntries, bodyOf]
  | cons h hs1 ih =>
    intro dp
    rw [fileEntries]
    have hb : bodyOf (h :: hs1) =
        BodyLine.header :: (h.lines.map BodyLine.content ++ bodyOf hs1) := by
      simp [bodyOf]
    rw [hb]
    simp only [List.length_append, List.filter_cons, List.filter_append]
    have hhd : isContentNonDeletion BodyLine.header = false := rfl
    rw [hhd]
    have hmap : (h.lines.map BodyLine.content).filter isContentNonDeletion =
        (h.lines.filter (fun l => !isDeletionLine l)).map BodyLine.content := by
      rw [List.filter_map]
      rfl
    simp only [if_neg, Bool.false_eq_true, if_false, List.length_append, hmap]
    rw [hunkEntries_length, ih]
    simp

/-- The `src/main.py` file of the sample diff used by the repository's
tests (tests/test_diff_parser.py): one hunk `@@ -10,6 +10,8 @@ def main():`
adding two lines at new-file positions 13 and 14. -/
def sampleHunk : DiffHunk :=
  { old_start := 10, old_count := 6, new_start := 10, new_count := 8,
    header := "def main():",
    lines := ["     print(\"Hello\")", "     print(\"World\")", "",
      "+    # New comment", "+    print(\"New line\")", "     return 0",
      "", ""] }

def sampleFileDiff : FileDiff :=
  { old_path := "src/main.py", new_path := "src/main.py",
    hunks := [sampleHunk] }

/-- C5: For every parsed `FileDiff`, the line-position index (1) is empty
for deleted or binary files; (2) contains only the spec entries
(`fileEntries`: one per context or addition line, keyed by the new-file
line number computed from the hunk's `new_start` advanced by each context
or addition line); (3) when the new-file line numbers are distinct, maps
each such key to its spec entry; (4) every spec entry's `diff_position` is
the 1-based index of its line in the file's diff body, which counts every
`@@` hunk header, context, addition and deletion line, and that line is a
context or addition (never a deletion) line whose stripped text is the
stored content; (5) there is exactly one entry per context-or-addition
body line. -/
theorem c5_diff_position_index (fd : FileDiff) :
    ((fd.is_deleted || fd.is_binary) = true → get_line_positions fd = []) ∧
    (∀ e ∈ get_line_positions fd, e ∈ fileEntries fd.new_path 0 fd.hunks) ∧
    (((fileEntries fd.new_path 0 fd.hunks).map Prod.fst).Nodup →
      (fd.is_deleted || fd.is_binary) = false →
      ∀ e ∈ fileEntries fd.new_path 0 fd.hunks,
        dictLookup e.1 (get_line_positions fd) = some e.2) ∧
    (∀ e ∈ fileEntries fd.new_path 0 fd.hunks,
      ∃ l, (bodyLines fd).get? (e.2.diff_position - 1) =
          some (BodyLine.content l) ∧
        isDeletionLine l = false ∧ 1 ≤ e.2.diff_position ∧
        e.2.content = lineContent l ∧
        e.2.is_addition = startsWithChar '+' l ∧
        e.2.line_number = e.1 ∧ e.2.file_path = fd.new_path) ∧
    (fileEntries fd.new_path 0 fd.hunks).length =
      ((bodyLines fd).filter isContentNonDeletion).length := by
  refine ⟨?_, ?_, ?_, ?_, ?_⟩
  · intro h
    rw [get_line_positions]
    simp [h]
  · intro e he
    by_cases hdb : (fd.is_deleted || fd.is_binary) = true
    · rw [get_line_positions] at he
      simp [hdb] at he
    · have hdb1 : (fd.is_deleted || fd.is_binary) = false := by
        revert hdb; cases (fd.is_deleted || fd.is_binary) <;> simp
      rw [get_line_positions_eq fd hdb1] at he
      rcases mem_insertAll _ _ _ he with h1 | h1
      · exact h1
      · simp at h1
  · intro hnd hdb e he
    rw [get_line_positions_eq fd hdb]
    exact dictLookup_insertAll_nodup _ _ e.1 e.2 hnd (by simpa using he)
  · intro e he
    obtain ⟨l, hj, hdel, hpos, hcont, hadd, hln, hfp⟩ :=
      fileEntries_sound fd.new_path fd.hunks 0 e he
    exact ⟨l, by simpa using hj, hdel, by omega, hcont, hadd, hln, hfp⟩
  · exact fileEntries_length fd.new_path fd.hunks 0

/-- Witness for C5 at the sample diff of the repository's tests: new-file
line 13 (the `    # New comment` addition) maps to diff position 5 — the
1-based count of body lines from the `@@` header (1) through the three
context lines (2-4) to the addition itself (5). -/
theorem c5_diff_position_index_witness :
    dictLookup 13 (get_line_positions sampleFileDiff) =
      some ⟨"src/main.py", 13, 5, "    # New comment", true⟩ :=
  (c5_diff_position_index sampleFileDiff).2.2.1 (by decide) (by decide)
    (13, ⟨"src/main.py", 13, 5, "    # New comment", true⟩) (by decide)

/-! ## Claim C4: glob filtering -/

def fdMainPy : FileDiff :=
  { old_path := "src/main.py", new_path := "src/main.py", hunks := [] }

def fdUtilsPy : FileDiff :=
  { old_path := "src/utils.py", new_path := "src/utils.py", hunks := [] }

def fdDocsMd : FileDiff :=
  { old_path := "docs/a.md", new_path := "docs/a.md", hunks := [] }

/-- C4 (code bug): on the spec's own example —
`include=["src/**/*.py"]`, `exclude=["**/utils.py"]` over `src/main.py`,
`src/utils.py`, `docs/a.md` — the code keeps NOTHING, not `src/main.py`:
`PurePath.match` gives `**` no recursive meaning (it matches exactly one
path component, so the three-component pattern `src/**/*.py` cannot match
the two-component path `src/main.py`), contradicting both the spec's glob
semantics and the code's own docstring ("properly handles ** glob
patterns").  The last conjuncts pin the divergence down: the include
pattern rejects `src/main.py` yet accepts the three-component
`src/a/b.py`. -/
theorem c4_glob_filter_failing_input :
    filter_files_by_patterns [fdMainPy, fdUtilsPy, fdDocsMd]
        ["src/**/*.py"] ["**/utils.py"] = [] ∧
    filter_files_by_patterns [fdMainPy, fdUtilsPy, fdDocsMd]
        ["src/**/*.py"] ["**/utils.py"] ≠ [fdMainPy] ∧
    purePathMatch "src/main.py" "src/**/*.py" = false ∧
    purePathMatch "src/a/b.py" "src/**/*.py" = true ∧
    purePathMatch "src/utils.py" "**/utils.py" = true := by
  decide

/-! ## Claim C3: no cost on SUPERSEDED / SKIPPED -/

/-- The `noCost r`: when the run ended SUPERSEDED or SKIPPED, its token and
cost fields are zero. -/
def noCost (r : EngineResult) : Prop :=
  r.review.status = ReviewStatus.superseded ∨
    r.review.status = ReviewStatus.skipped →
  r.review.input_tokens = 0 ∧ r.review.output_tokens = 0 ∧
    r.review.cost_cents = 0

/-- The token/cost fields of a row are all zero. -/
def zeroTokens (row : ReviewRow) : Prop :=
  row.input_tokens = 0 ∧ row.output_tokens = 0 ∧ row.cost_cents = 0

theorem stageClaude_status (env : EngineEnv) (row : ReviewRow)
    (filtered : List FileDiff) :
    (stageClaude env row filtered).review.status = ReviewStatus.completed :=
  rfl

theorem noCost_stageClaude (env : EngineEnv) (row : ReviewRow)
    (filtered : List FileDiff) : noCost (stageClaude env row filtered) := by
  intro h
  rcases h with h | h <;> rw [stageClaude_status] at h <;> cases h

theorem noCost_supersededResult (row : ReviewRow) (nsha : String)
    (hrow : zeroTokens row) : noCost (supersededResult row nsha) := by
  intro _
  exact hrow

theorem noCost_stageSupersede (env : EngineEnv) (row : ReviewRow)
    (filtered : List FileDiff) (hrow : zeroTokens row) :
    noCost (stageSupersede env row filtered) := by
  unfold stageSupersede
  dsimp only
  split
  · exact noCost_supersededResult _ _ hrow
  · split
    · exact noCost_supersededResult _ _ hrow
    · exact noCost_stageClaude _ _ _

theorem noCost_stageFilter (env : EngineEnv) (row : ReviewRow)
    (hrow : zeroTokens row) : noCost (stageFilter env row) := by
  unfold stageFilter
  dsimp only
  split
  · intro h
    rcases h with h | h <;> cases h
  · exact noCost_stageSupersede _ _ _ hrow

theorem noCost_stageDiffSize (env : EngineEnv) (row : ReviewRow)
    (hrow : zeroTokens row) : noCost (stageDiffSize env row) := by
  unfold stageDiffSize
  dsimp only
  split
  · intro _; exact hrow
  · exact noCost_stageFilter _ _ hrow

theorem noCost_stageFileCount (env : EngineEnv) (row : ReviewRow)
    (hrow : zeroTokens row) : noCost (stageFileCount env row) := by
  unfold stageFileCount
  dsimp only
  split
  · intro _; exact hrow
  · exact noCost_stageDiffSize _ _ hrow

/-- Every run either completes through the Claude call, or leaves the token
and cost fields at their defaults of zero. -/
theorem review_tokens_zero_unless_claude (env : EngineEnv) :
    noCost (review_pull_request env) := by
  unfold review_pull_request
  dsimp only
  split
  · intro _; exact ⟨rfl, rfl, rfl⟩
  · split
    · intro _; exact ⟨rfl, rfl, rfl⟩
    · split
      · intro _; exact ⟨rfl, rfl, rfl⟩
      · split
        · intro _; exact ⟨rfl, rfl, rfl⟩
        · exact noCost_stageFileCount _ _ ⟨rfl, rfl, rfl⟩

/-- C3: For every Review whose terminal status is SUPERSEDED or SKIPPED,
`input_tokens`, `output_tokens` and `cost_cents` are all zero — the AI
call's token and cost fields are only ever written on the path that ends
COMPLETED after invoking Claude. -/
theorem c3_no_cost_on_supersede_or_skip (env : EngineEnv) :
    (review_pull_request env).review.status = ReviewStatus.superseded ∨
    (review_pull_request env).review.status = ReviewStatus.skipped →
    (review_pull_request env).review.input_tokens = 0 ∧
    (review_pull_request env).review.output_tokens = 0 ∧
    (review_pull_request env).review.cost_cents = 0 := by
  intro h
  exact review_tokens_zero_unless_claude env h

/-! ## Concrete environments for witnesses and counterexamples -/

def baseSettings : EngineSettings :=
  { max_diff_size_bytes := 500000, enable_line_comments := true,
    input_token_cost_per_million := 300,
    output_token_cost_per_million := 1500 }

def baseDB : BudgetDB :=
  { installations :=
      [{ id := 1, is_active := true, monthly_budget_cents := 10000 }],
    repositories := [{ id := 10, monthly_budget_cents := none }],
    usage := [] }

def basePR : PRData :=
  { title := "Add feature", author := "alice",
    head_sha := "bbbbbbbbbbbbbbbbbbbbbbbbbbbbbbbbbbbbbbbb",
    base_sha := "cccccccccccccccccccccccccccccccccccccccc",
    body := none, changed_files := 3 }

def baseConfig : ReviewConfig :=
  { auto_review := true, review_on := ["opened", "synchronize"],
    max_files := 50, include_patterns := [], exclude_patterns := [],
    context_files := [] }

def baseClaude : ClaudeResp :=
  { summary := "Looks fine.", risk_level := "low", comments := [],
    input_tokens := 1000, output_tokens := 500 }

/-- A run whose `expected_head_sha` no longer matches the PR head. -/
def envSuperseded : EngineEnv :=
  { pr_number := 5, repo_is_enabled := true, repo_id := 10,
    installation_id := 1, config := baseConfig,
    trigger := ReviewTrigger.pr_synchronize, triggered_by := none,
    db := baseDB, year := 2025, month := 10, pr := basePR,
    check_run_created := some 7, diff_text := "diff",
    parsed_files := [fdMainPy],
    expected_head_sha := some "aaaaaaaaaaaaaaaaaaaaaaaaaaaaaaaaaaaaaaaa",
    refetch_head_sha := "bbbbbbbbbbbbbbbbbbbbbbbbbbbbbbbbbbbbbbbb",
    claude := baseClaude, github_review_id := 99,
    settings := baseSettings }

/-- Witness for C3 at a concrete superseded run: an expected head sha that
no longer matches the fetched PR head ends the review SUPERSEDED with zero
tokens and cost. -/
theorem c3_no_cost_witness :
    (review_pull_request envSuperseded).review.status =
        ReviewStatus.superseded ∧
      (review_pull_request envSuperseded).review.input_tokens = 0 ∧
      (review_pull_request envSuperseded).review.output_tokens = 0 ∧
      (review_pull_request envSuperseded).review.cost_cents = 0 :=
  ⟨rfl, c3_no_cost_on_supersede_or_skip envSuperseded (Or.inl rfl)⟩

/-! ## Claim C2: check-run finalization -/

theorem updateCheckRun_some (row : ReviewRow) (i : Nat)
    (h : row.github_check_run_id = some i) :
    updateCheckRun row = [(i, "completed", conclusionFor row.status)] := by
  unfold updateCheckRun
  rw [h]

/-- How a run's check-run updates relate to its terminal state, when a
check run was created: SUPERSEDED and COMPLETED-after-Claude finalize it
(`completed` with the mapped conclusion); the SKIPPED paths inside the main
block and the no-files COMPLETED path never touch it. -/
def checkRunFacts (r : EngineResult) : Prop :=
  ∀ i, r.review.github_check_run_id = some i →
    (r.review.status = ReviewStatus.superseded →
      r.check_run_updates = [(i, "completed", "cancelled")]) ∧
    (r.review.status = ReviewStatus.completed ∧ r.claude_called = true →
      r.check_run_updates = [(i, "completed", "success")]) ∧
    (r.review.status = ReviewStatus.skipped ∨
        (r.review.status = ReviewStatus.completed ∧
          r.claude_called = false) →
      r.check_run_updates = [])

theorem checkRunFacts_stageClaude (env : EngineEnv) (row : ReviewRow)
    (filtered : List FileDiff) : checkRunFacts (stageClaude env row filtered) := by
  intro i hid
  refine ⟨?_, ?_, ?_⟩
  · intro h
    rw [stageClaude_status] at h
    cases h
  · intro _
    exact updateCheckRun_some _ _ hid
  · intro h
    rcases h with h | h
    · rw [stageClaude_status] at h; cases h
    · cases h.2

theorem checkRunFacts_supersededResult (row : ReviewRow) (nsha : String) :
    checkRunFacts (supersededResult row nsha) := by
  intro i hid
  refine ⟨?_, ?_, ?_⟩
  · intro _
    exact updateCheckRun_some _ _ hid
  · intro h
    cases h.1
  · intro h
    rcases h with h | ⟨h, _⟩ <;> cases h

theorem checkRunFacts_stageSupersede (env : EngineEnv) (row : ReviewRow)
    (filtered : List FileDiff) :
    checkRunFacts (stageSupersede env row filtered) := by
  unfold stageSupersede
  dsimp only
  split
  · exact checkRunFacts_supersededResult _ _
  · split
    · exact checkRunFacts_supersededResult _ _
    · exact checkRunFacts_stageClaude _ _ _

theorem checkRunFacts_stageFilter (env : EngineEnv) (row : ReviewRow) :
    checkRunFacts (stageFilter env row) := by
  unfold stageFilter
  dsimp only
  split
  · intro i hid
    refine ⟨?_, ?_, ?_⟩
    · intro h; cases h
    · intro h; cases h.2
    · intro _; rfl
  · exact checkRunFacts_stageSupersede _ _ _

theorem checkRunFacts_stageDiffSize (env : EngineEnv) (row : ReviewRow) :
    checkRunFacts (stageDiffSize env row) := by
  unfold stageDiffSize
  dsimp only
  split
  · intro i hid
    refine ⟨?_, ?_, ?_⟩
    · intro h; cases h
    · intro h; cases h.1
    · intro _; rfl
  · exact checkRunFacts_stageFilter _ _

theorem checkRunFacts_stageFileCount (env : EngineEnv) (row : ReviewRow) :
    checkRunFacts (stageFileCount env row) := by
  unfold stageFileCount
  dsimp only
  split
  · intro i hid
    refine ⟨?_, ?_, ?_⟩
    · intro h; cases h
    · intro h; cases h.1
    · intro _; rfl
  · exact checkRunFacts_stageDiffSize _ _

theorem checkRunFacts_review (env : EngineEnv) :
    checkRunFacts (review_pull_request env) := by
  unfold review_pull_request
  dsimp only
  split
  · intro i hid; cases hid
  · split
    · intro i hid; cases hid
    · split
      · intro i hid; cases hid
      · split
        · intro i hid; cases hid
        · exact checkRunFacts_stageFileCount _ _

/-- A run with a created check run (id 7) that hits the file-count gate:
`changed_files = 51` against `max_files = 50`. -/
def envTooMany : EngineEnv :=
  { envSuperseded with
    pr := { basePR with changed_files := 51 },
    expected_head_sha := none }

/-- C2 counterexample: a Review that ends SKIPPED for too many files with
`check_run_id` set (the check run is created before the file-count gate)
issues NO check-run update — the run returns with the check run still in
progress, so the claimed invariant fails on this path.  (The no-files
COMPLETED path and the diff-too-large path behave the same way, per
`c2_check_run_amended`.) -/
theorem c2_check_run_counterexample :
    (review_pull_request envTooMany).review.status = ReviewStatus.skipped ∧
    (review_pull_request envTooMany).review.github_check_run_id = some 7 ∧
    (review_pull_request envTooMany).check_run_updates = [] ∧
    (review_pull_request envTooMany).review.error_message =
      some "Too many files: 51" :=
  ⟨rfl, rfl, rfl, rfl⟩

/-- C2 amended: with `check_run_id` set, the check run is finalized
(`completed`, mapped conclusion) when the Review ends SUPERSEDED or ends
COMPLETED through the AI call; but on the paths that end SKIPPED for too
many files or too large a diff, and on the path that ends COMPLETED with
"No files to review after applying path filters.", no check-run update is
issued at all — the check run is left in progress. -/
theorem c2_check_run_amended (env : EngineEnv) (i : Nat)
    (hid : (review_pull_request env).review.github_check_run_id = some i) :
    ((review_pull_request env).review.status = ReviewStatus.superseded →
      (review_pull_request env).check_run_updates =
        [(i, "completed", "cancelled")]) ∧
    ((review_pull_request env).review.status = ReviewStatus.completed ∧
      (review_pull_request env).claude_called = true →
      (review_pull_request env).check_run_updates =
        [(i, "completed", "success")]) ∧
    ((review_pull_request env).review.status = ReviewStatus.skipped ∨
      ((review_pull_request env).review.status = ReviewStatus.completed ∧
        (review_pull_request env).claude_called = false) →
      (review_pull_request env).check_run_updates = []) :=
  checkRunFacts_review env i hid

/-- Witness for the amended C2: the superseded run with check run id 7
finalizes it as `completed`/`cancelled`. -/
theorem c2_check_run_amended_witness :
    (review_pull_request envSuperseded).check_run_updates =
      [(7, "completed", "cancelled")] :=
  (c2_check_run_amended envSuperseded 7 rfl).1 rfl

/-! ## Claim C6: the budget gate -/

/-- The `h` contains `n` as a substring. -/
def strContains (h n : String) : Prop := ∃ p q, h = p ++ (n ++ q)

/-- The current month's `total_cost_cents` for an installation (0 with no
usage row). -/
def monthSpend (db : BudgetDB) (inst_id year month : Nat) : Int :=
  match db.usage.find? (fun u =>
      u.installation_id == inst_id && u.year == year && u.month == month) with
  | some u => u.total_cost_cents
  | none => 0

/-- The effective budget: the repository override when the repository row
exists and sets one, else the installation's `monthly_budget_cents`. -/
def effectiveBudget (db : BudgetDB) (inst : InstallationRow)
    (repository_id : Option Nat) : Int :=
  match repository_id with
  | none => inst.monthly_budget_cents
  | some rid =>
      match db.repositories.find? (fun r => r.id == rid) with
      | some repo =>
          match repo.monthly_budget_cents with
          | some b => b
          | none => inst.monthly_budget_cents
      | none => inst.monthly_budget_cents

/-- C6: (1) `check_budget` passes iff the installation row exists, is
active, and the current month's spend is strictly below the effective
budget (so budget 100 with spend 100 is rejected); (2) whenever the
earlier gates pass and `check_budget` fails, the run posts exactly one PR
comment — the budget comment, whose text contains "Monthly budget of
$<budget> has been exceeded" — ends SKIPPED with error message "Budget
exceeded", never calls Claude, and records no usage. -/
theorem c6_budget_gate (env : EngineEnv)
    (h1 : env.repo_is_enabled = true)
    (h2 : autoReviewGate env = true)
    (h3 : triggerGate env = true) :
    ((check_budget env.db env.installation_id (some env.repo_id)
        env.year env.month).1 = true ↔
      ∃ inst, env.db.installations.find? (fun x => x.id == env.installation_id) =
          some inst ∧ inst.is_active = true ∧
        monthSpend env.db inst.id env.year env.month <
          effectiveBudget env.db inst (some env.repo_id)) ∧
    ((check_budget env.db env.installation_id (some env.repo_id)
        env.year env.month).1 = false →
      (review_pull_request env).review.status = ReviewStatus.skipped ∧
      (review_pull_request env).review.error_message =
        some "Budget exceeded" ∧
      (review_pull_request env).issue_comments =
        [budgetComment (check_budget env.db env.installation_id
          (some env.repo_id) env.year env.month).2.2] ∧
      strContains
        (budgetComment (check_budget env.db env.installation_id
          (some env.repo_id) env.year env.month).2.2)
        ("Monthly budget of $" ++
          formatDollars2 (check_budget env.db env.installation_id
            (some env.repo_id) env.year env.month).2.2 ++
          " has been exceeded") ∧
      (review_pull_request env).claude_called = false ∧
      (review_pull_request env).usage_recorded = none) := by
  constructor
  · unfold check_budget monthSpend effectiveBudget
    cases hf : env.db.installations.find? (fun x => x.id == env.installation_id) with
    | none => simp
    | some inst =>
        cases ha : inst.is_active with
        | false => simp [ha]
        | true =>
            simp only [ha, Bool.not_true, Bool.false_eq_true, if_false,
              Option.some.injEq]
            constructor
            · intro h
              refine ⟨inst, rfl, ha, ?_⟩
              have := of_decide_eq_true h
              omega
            · intro ⟨inst1, hi, _, hlt⟩
              subst hi
              exact decide_eq_true (by omega)
  · intro hb
    have hrw : review_pull_request env =
        { skippedResult env "Budget exceeded" with
          issue_comments := [budgetComment (check_budget env.db
            env.installation_id (some env.repo_id) env.year env.month).2.2] } := by
      unfold review_pull_request
      dsimp only
      rw [if_neg (by simp [h1]), if_neg (by simp [h2]), if_neg (by simp [h3]),
        if_pos (by simp [hb])]
    rw [hrw]
    refine ⟨rfl, rfl, rfl, ?_, rfl, rfl⟩
    exact ⟨"**AI Review skipped**: ",
      ". Reviews will resume next month or when the budget is increased.",
      rfl⟩

/-- Installation budget 100 cents, current-month usage 100 cents. -/
def envBudget : EngineEnv :=
  { envSuperseded with
    trigger := ReviewTrigger.pr_opened,
    db :=
      { installations :=
          [{ id := 1, is_active := true, monthly_budget_cents := 100 }],
        repositories := [{ id := 10, monthly_budget_cents := none }],
        usage :=
          [{ installation_id := 1, year := 2025, month := 10,
             total_input_tokens := 50000, total_output_tokens := 20000,
             total_cost_cents := 100, total_reviews := 7 }] } }

/-- Witness for C6: with a budget of 100 cents and 100 cents already spent
this month, the gate rejects the run, the review is SKIPPED, exactly one PR
comment is posted and it contains "Monthly budget of $1.00 has been
exceeded", Claude is never called, and no usage is recorded. -/
theorem c6_budget_gate_witness :
    (check_budget envBudget.db envBudget.installation_id
        (some envBudget.repo_id) envBudget.year envBudget.month).1 = false ∧
    (review_pull_request envBudget).review.status = ReviewStatus.skipped ∧
    (review_pull_request envBudget).issue_comments = [budgetComment 100] ∧
    strContains (budgetComment 100)
      "Monthly budget of $1.00 has been exceeded" ∧
    (review_pull_request envBudget).claude_called = false ∧
    (review_pull_request envBudget).usage_recorded = none := by
  have h := (c6_budget_gate envBudget rfl rfl rfl).2 rfl
  exact ⟨rfl, h.1, h.2.2.1, h.2.2.2.1, h.2.2.2.2.1, h.2.2.2.2.2⟩

/-! ## Claim C7: the file-count gate is strict -/

/-- C7: once the earlier gates and the budget pass, a PR with
`changed_files ≤ max_files` — in particular `changed_files = max_files` —
proceeds past the file-count gate into the diff-size step, while
`changed_files = max_files + 1` SKIPs, posting the too-many-files comment
and recording the file count in `error_message`. -/
theorem c7_file_count_gate (env : EngineEnv)
    (h1 : env.repo_is_enabled = true)
    (h2 : autoReviewGate env = true)
    (h3 : triggerGate env = true)
    (hb : (check_budget env.db env.installation_id (some env.repo_id)
      env.year env.month).1 = true) :
    (env.pr.changed_files ≤ env.config.max_files →
      review_pull_request env = stageDiffSize env (rowAfterFetch env)) ∧
    (env.pr.changed_files = env.config.max_files + 1 →
      (review_pull_request env).review.status = ReviewStatus.skipped ∧
      (review_pull_request env).review.error_message =
        some ("Too many files: " ++ toString env.pr.changed_files) ∧
      (review_pull_request env).issue_comments =
        [tooManyFilesComment env.pr.changed_files env.config.max_files] ∧
      (review_pull_request env).claude_called = false) := by
  have hrw : review_pull_request env = stageFileCount env (rowAfterFetch env) := by
    unfold review_pull_request
    dsimp only
    rw [if_neg (by simp [h1]), if_neg (by simp [h2]), if_neg (by simp [h3]),
      if_neg (by simp [hb])]
  constructor
  · intro hle
    rw [hrw]
    unfold stageFileCount
    dsimp only
    rw [if_neg (by omega)]
  · intro heq
    rw [hrw]
    unfold stageFileCount
    dsimp only
    rw [if_pos (by omega)]
    exact ⟨rfl, rfl, rfl, rfl⟩

/-- The `changed_files = 50` against `max_files = 50`. -/
def envAtLimit : EngineEnv :=
  { envTooMany with pr := { basePR with changed_files := 50 } }

/-- Witness for C7: 50 changed files against a limit of 50 proceeds past
the gate; 51 ends SKIPPED with the count recorded. -/
theorem c7_file_count_gate_witness :
    review_pull_request envAtLimit =
      stageDiffSize envAtLimit (rowAfterFetch envAtLimit) ∧
    (review_pull_request envTooMany).review.status = ReviewStatus.skipped ∧
    (review_pull_request envTooMany).review.error_message =
      some "Too many files: 51" :=
  ⟨(c7_file_count_gate envAtLimit rfl rfl rfl rfl).1 (by decide),
    ((c7_file_count_gate envTooMany rfl rfl rfl rfl).2 rfl).1,
    ((c7_file_count_gate envTooMany rfl rfl rfl rfl).2 rfl).2.1⟩

/-! ## Claim C9: malformed AI responses degrade, they do not raise -/

/-- C9: whenever the response text — after stripping a ```json or plain
``` fence — fails JSON decoding, `review_diff` returns (never raises) the
well-formed fallback: an empty comments list, risk level "medium", and a
summary holding the first 500 characters of the stripped raw text behind
"Failed to parse structured response. Raw output: ". -/
theorem c9_ai_malformed_fallback (text : String) (inp outp : Nat)
    (h : jsonLoads (pyStrip (stripCodeFence text)) = none) :
    review_diff_parse text inp outp = Except.ok
      { summary := JVal.str
          ("Failed to parse structured response. Raw output: " ++
            pyTake (stripCodeFence text) 500),
        risk_level := JVal.str "medium", comments := JVal.arr [],
        input_tokens := inp, output_tokens := outp } := by
  unfold review_diff_parse
  dsimp only
  rw [h]

set_option maxRecDepth 4000 in
/-- Witness for C9 on a concrete non-JSON response body. -/
theorem c9_ai_malformed_fallback_witness :
    review_diff_parse "I am not JSON at all." 12 34 = Except.ok
      { summary := JVal.str
          "Failed to parse structured response. Raw output: I am not JSON at all.",
        risk_level := JVal.str "medium", comments := JVal.arr [],
        input_tokens := 12, output_tokens := 34 } :=
  c9_ai_malformed_fallback "I am not JSON at all." 12 34 rfl

/-! ## Claim C10: severity rendering and persistence -/

/-- C10: for every AI comment that survives position mapping, the posted
body opens with the severity tag of its (defaulted) severity string; a
severity outside {critical, warning, suggestion, nitpick} renders as
"[INFO]"; the persisted severity is the parsed enum value, falling back to
SUGGESTION only for strings outside the stored enum — so "praise", a valid
stored `CommentSeverity`, is persisted as PRAISE yet rendered "[INFO]"
rather than "[PRAISE]". -/
theorem c10_severity_rendering
    (index : List (String × List (Nat × LinePosition))) (c : AIComment)
    (gh : GHComment) (db : DBComment)
    (h : processComment index c = some (gh, db)) :
    (∃ rest, gh.body = severityTag (c.severity.getD "suggestion") ++ rest) ∧
    db.severity = parseSeverity (c.severity.getD "suggestion") ∧
    (c.severity.getD "suggestion" ∉
        (["critical", "warning", "suggestion", "nitpick"] : List String) →
      severityTag (c.severity.getD "suggestion") = "[INFO]") ∧
    (c.severity.getD "suggestion" ∉
        (["critical", "warning", "suggestion", "nitpick", "praise"] :
          List String) →
      db.severity = CommentSeverity.suggestion) ∧
    (c.severity = some "praise" →
      (∃ rest, gh.body = "[INFO]" ++ rest) ∧
      db.severity = CommentSeverity.praise) := by
  unfold processComment at h
  cases hcf : c.file with
  | none => rw [hcf] at h; simp at h
  | some f =>
    rw [hcf] at h
    dsimp only at h
    cases hidx : dictLookup f index with
    | none => rw [hidx] at h; simp at h
    | some fileIndex =>
      rw [hidx] at h
      dsimp only at h
      cases hcl : c.line with
      | none => rw [hcl] at h; simp at h
      | some ln =>
        rw [hcl] at h
        dsimp only at h
        cases hpos : dictLookup ln fileIndex with
        | none => rw [hpos] at h; simp at h
        | some position =>
          rw [hpos] at h
          dsimp only at h
          rw [Option.some.injEq, Prod.mk.injEq] at h
          obtain ⟨hg, hd⟩ := h
          subst hg
          subst hd
          refine ⟨⟨_, rfl⟩, rfl, ?_, ?_, ?_⟩
          · intro hn
            simp only [List.mem_cons, List.not_mem_nil, or_false, not_or] at hn
            obtain ⟨n1, n2, n3, n4⟩ := hn
            simp [severityTag, n1, n2, n3, n4]
          · intro hn
            simp only [List.mem_cons, List.not_mem_nil, or_false, not_or] at hn
            obtain ⟨n1, n2, n3, n4, n5⟩ := hn
            simp [parseSeverity, n1, n2, n3, n4, n5]
          · intro hp
            rw [hp]
            exact ⟨⟨_, rfl⟩, rfl⟩

def praiseAIComment : AIComment :=
  { file := some "src/main.py", line := some 13, severity := some "praise",
    category := some "style", message := "Nice catch!",
    suggested_fix := none }

def ghPraise : GHComment :=
  { path := "src/main.py", position := 5,
    body := "[INFO] **Style**: Nice catch!" }

def dbPraise : DBComment :=
  { file_path := "src/main.py", line_number := 13, diff_position := 5,
    severity := CommentSeverity.praise, category := "style",
    message := "Nice catch!", suggested_fix := none }

/-- Witness for C10: a "praise" comment surviving position mapping on the
sample diff is posted with the "[INFO]" tag and persisted as PRAISE. -/
theorem c10_severity_rendering_witness :
    (∃ rest, ghPraise.body = "[INFO]" ++ rest) ∧
    dbPraise.severity = CommentSeverity.praise :=
  (c10_severity_rendering (build_position_index [sampleFileDiff])
    praiseAIComment ghPraise dbPraise rfl).2.2.2.2 rfl

/-! ## Claim C8: the client does not retry on 401 -/

def resp401 : HttpResponse := { status := 401, pr := basePR }

/-- C8 counterexample: on a 401 response `GitHubClient.get_pull_request`
issues exactly ONE request and propagates the error — it does not
re-authenticate and retry (which would take 2 requests); no code path
invalidates the token cache on a 401. -/
theorem c8_counterexample_401_no_retry :
    get_pull_request (fun _ => resp401) = (Except.error 401, 1) ∧
    (get_pull_request (fun _ => resp401)).2 ≠ 2 :=
  ⟨rfl, by decide⟩

/-- C8 amended: every hosting-API call issues exactly one request; every
non-2xx status — 401 included — propagates to the caller as a raised
`HTTPStatusError` with no retry inside the client; and the cached
installation token is never invalidated by a response status — the cache
is reused verbatim whenever a live entry (more than 60 s from expiry)
exists, and refreshed only on miss or near-expiry. -/
theorem c8_no_retry_amended (http : Nat → HttpResponse) :
    (get_pull_request http).2 = 1 ∧
    (¬(200 ≤ (http 0).status ∧ (http 0).status ≤ 299) →
      (get_pull_request http).1 = Except.error (http 0).status) ∧
    (∀ (cache : TokenCache) (now : Int) (iid : Nat) (fresh token : String)
        (exp : Int), dictLookup iid cache = some (token, exp) →
      now < exp - 60 →
      get_installation_token cache now iid fresh = (token, cache)) := by
  refine ⟨?_, ?_, ?_⟩
  · unfold get_pull_request
    dsimp only
    split <;> rfl
  · intro hns
    cases hc : (200 ≤ (http 0).status && decide ((http 0).status ≤ 299)) with
    | true =>
        exfalso
        apply hns
        have := Bool.and_eq_true_iff.mp hc
        exact ⟨of_decide_eq_true this.1, of_decide_eq_true this.2⟩
    | false =>
        simp only [get_pull_request, raiseForStatus, hc, Bool.false_eq_true,
          if_false]
  · intro cache now iid fresh token exp hl hlt
    unfold get_installation_token
    rw [hl]
    dsimp only
    rw [if_pos hlt]

/-- Witness for the amended C8: a 401 response yields one request and a
propagated 401; a cached token well before expiry is returned with the
cache untouched. -/
theorem c8_no_retry_amended_witness :
    (get_pull_request (fun _ => resp401)).2 = 1 ∧
    (get_pull_request (fun _ => resp401)).1 = Except.error 401 ∧
    get_installation_token [(1, ("tok", 5000))] 100 1 "fresh" =
      ("tok", [(1, ("tok", 5000))]) :=
  ⟨(c8_no_retry_amended (fun _ => resp401)).1,
    (c8_no_retry_amended (fun _ => resp401)).2.1 (by decide),
    (c8_no_retry_amended (fun _ => resp401)).2.2 [(1, ("tok", 5000))] 100 1
      "fresh" "tok" 5000 rfl (by decide)⟩

/-! ## Claim C1: expected_head_sha never reaches the engine -/

def syncEvent : PullRequestEvent :=
  { action := "synchronize", installation_id := 42,
    repo_full_name := "owner/repo", number := 5,
    head_sha := "aaaaaaaaaaaaaaaaaaaaaaaaaaaaaaaaaaaaaaaa" }

/-- C1 (code bug): the webhook dispatcher defers the review job with
`head_sha = event.pull_request.head.sha` under the PR lock key — but the
task function `process_pull_request` has no `head_sha` parameter
(the deferred kwargs don't fit its signature), and the engine call it
makes passes `expected_head_sha = None`, never the event's head sha.  The
dispatcher/task wiring therefore drops the value the engine's pre-AI
supersede check needs, while the engine itself (see
`c2_check_run_amended`, `c3_no_cost_witness`) implements the SUPERSEDED
path the claim describes whenever the value IS passed. -/
theorem c1_expected_head_sha_dropped :
    (∃ job, dispatch_pull_request 30 syncEvent = some job ∧
      job.head_sha = syncEvent.head_sha ∧
      job.queueing_lock = "pr:owner/repo:5" ∧
      job.delay_seconds = 30) ∧
    (process_pull_request 42 "owner/repo" 5 "synchronize").expected_head_sha =
      none ∧
    (process_pull_request 42 "owner/repo" 5 "synchronize").trigger =
      ReviewTrigger.pr_synchronize ∧
    "head_sha" ∈ deferredKwargNames ∧
    "head_sha" ∉ processPullRequestParams ∧
    (none : Option String) ≠ some syncEvent.head_sha := by
  refine ⟨⟨_, rfl, rfl, rfl, rfl⟩, rfl, rfl, by decide, by decide, by decide⟩
